import Mathlib

/-!
# Disaster dashboard client (`script.js`)

A shallow embedding of the browser script and the properties checked against it.

* JavaScript values are embedded as `JSVal`; an exception is an `Except String _`
  whose payload is the `message` of the thrown `Error`.
* The page is a `State`: the two globals `currentUser` and `disasters`, the five
  containers the script writes to, the alerts and console output produced so far,
  the calls of `fetch` made so far and the ones still awaited.
* The script is event driven.  `step` runs one task to completion: a page event,
  a socket message, or the completion of an awaited `fetch`.  An async function is
  cut at its `await`: the part before it runs in the task that calls the function,
  the part after it (named `...Resume`) in the task that completes the request.
  The awaits inside one completion (the response, its body, the return from
  `apiCall` to its caller) are taken together.
* A template literal is embedded as the list of its pieces, in order: the literal
  parts, the interpolated texts as they are, and the locale dependent text of a
  date, which `innerHTML` fills in from a given `toLocaleString`.
* Comparing text with a number (`"5" > 0`) parses the text as a floating point
  number; the outcome of that comparison is the parameter `pos`.
* Not embedded: `deleteDisaster`, `submitReport`, `testGeocoding` and the
  connection status indicator, which no property below involves.
-/

namespace CityMall

/-! ## JavaScript values -/

/-- JSON data as produced by `response.json()` or delivered as a socket payload,
together with `undefined`.  Numbers are restricted to the integers JavaScript
prints in plain decimal (magnitude below `10^21`); fractions and larger magnitudes
are not covered.  An object is the list of its property definitions in the order
they were evaluated; a later definition of a key overrides an earlier one. -/
inductive JSVal where
  | undefined
  | null
  | bool (b : Bool)
  | num (n : Int)
  | str (s : String)
  | arr (xs : List JSVal)
  | obj (fields : List (String × JSVal))
  deriving Repr, Inhabited

namespace JSVal

/-- Value of property `k` in a list of property definitions (the last one wins). -/
def lookup (k : String) : List (String × JSVal) → Option JSVal
  | [] => none
  | (k', v) :: rest =>
    match lookup k rest with
    | some w => some w
    | none => if k' = k then some v else none

/-- The `ToBoolean` conversion. -/
def truthy : JSVal → Bool
  | undefined => false
  | null => false
  | bool b => b
  | num n => n != 0
  | str s => s != ""
  | arr _ => true
  | obj _ => true

/-- Property read `v.k` for a data property name `k` (none of the names the script
reads is defined on a built-in prototype): reading from `undefined` or `null`
throws a `TypeError`, a missing property reads as `undefined`. -/
def get (v : JSVal) (k : String) : Except String JSVal :=
  match v with
  | undefined => .error ("Cannot read properties of undefined (reading '" ++ k ++ "')")
  | null => .error ("Cannot read properties of null (reading '" ++ k ++ "')")
  | obj fs => .ok ((lookup k fs).getD undefined)
  | _ => .ok undefined

mutual
/-- The `ToString` conversion used by template literals.  A plain object prints as
`[object Object]`, unless it carries an own `toString` property: JSON data is never
callable, so the conversion to a primitive then throws. -/
def toStr : JSVal → Except String String
  | undefined => .ok "undefined"
  | null => .ok "null"
  | bool true => .ok "true"
  | bool false => .ok "false"
  | num n => .ok (toString n)
  | str s => .ok s
  | arr xs => joinStr xs
  | obj fs =>
    if fs.any (fun p => p.1 == "toString") then
      .error "Cannot convert object to primitive value"
    else .ok "[object Object]"
/-- The text of `Array.prototype.join` with the default separator, which is what an
array converts to: `undefined` and `null` elements print as the empty string. -/
def joinStr : List JSVal → Except String String
  | [] => .ok ""
  | x :: rest =>
    match elemStr x with
    | .error e => .error e
    | .ok a =>
      match rest with
      | [] => .ok a
      | _ :: _ =>
        match joinStr rest with
        | .error e => .error e
        | .ok b => .ok (a ++ "," ++ b)
/-- Conversion of one array element inside `join`. -/
def elemStr : JSVal → Except String String
  | undefined => .ok ""
  | null => .ok ""
  | bool true => .ok "true"
  | bool false => .ok "false"
  | num n => .ok (toString n)
  | str s => .ok s
  | arr xs => joinStr xs
  | obj fs =>
    if fs.any (fun p => p.1 == "toString") then
      .error "Cannot convert object to primitive value"
    else .ok "[object Object]"
end

/-- Strict equality `v === "s"` against a string. -/
def strictEqStr (v : JSVal) (s : String) : Bool :=
  match v with
  | str t => t == s
  | _ => false

/-- Own enumerable properties copied by a spread `...v` inside an object literal.
A string is spread character by character; JavaScript counts a character outside
the basic plane as two, which is not covered. -/
def ownProps : JSVal → List (String × JSVal)
  | obj fs => fs
  | arr xs => xs.enum.map (fun p => (toString p.1, p.2))
  | str s => s.data.enum.map (fun p => (toString p.1, str (String.singleton p.2)))
  | _ => []

end JSVal

open JSVal

/-! ## The request gateway: `apiCall` up to its call of `fetch` -/

/-- The base URL every request path is appended to. -/
def API_BASE_URL : String := "http://localhost:8000/api"

/-- The two arguments of one call of `fetch`.  For the calls made by the script
itself the `body` entry of `init` holds the value handed to `JSON.stringify`. -/
structure Request where
  url : String
  init : List (String × JSVal)
  deriving Repr, Inhabited

/-- Value of header `k` in the `headers` object passed to `fetch`. -/
def Request.header (r : Request) (k : String) : Option JSVal :=
  match lookup "headers" r.init with
  | some (obj hs) => lookup k hs
  | _ => none

/-- The arguments `apiCall(url, options)` passes to `fetch` when the current user is
`currentUser`, or the exception raised while building them.  A missing `options`
defaults to the empty object. -/
def apiRequest (currentUser : String) (url : String) (options : JSVal) :
    Except String Request :=
  let options := match options with
    | undefined => obj []
    | o => o
  match options.get "headers" with
  | .error e => .error e
  | .ok hs =>
    .ok {
      url := API_BASE_URL ++ url
      init := ownProps options ++
        [("headers", obj ([("Content-Type", str "application/json"),
                            ("x-user-id", str currentUser)] ++ ownProps hs))] }

/-- The value the caller itself supplies for header `k` through `options.headers`,
if any. -/
def callerHeader (options : JSVal) (k : String) : Option JSVal :=
  match options.get "headers" with
  | .ok hs => lookup k (ownProps hs)
  | .error _ => none

/-! ## More of the JavaScript semantics the script relies on -/

namespace JSVal

/-- Number of UTF-16 code units of a string, its `length`. -/
def utf16Length (s : String) : Nat :=
  (s.data.map (fun c => if c.toNat < 65536 then 1 else 2)).sum

/-- The test `v.length === 0` for a value `v` that is not `undefined` or `null`
(strict equality, so only a number zero passes). -/
def lengthIsZero : JSVal → Bool
  | arr xs => xs.isEmpty
  | str s => s.isEmpty
  | obj fs =>
    match lookup "length" fs with
    | some (num n) => n == 0
    | _ => false
  | _ => false

/-- Property read `v.length`. -/
def lengthOf : JSVal → Except String JSVal
  | undefined => .error "Cannot read properties of undefined (reading 'length')"
  | null => .error "Cannot read properties of null (reading 'length')"
  | arr xs => .ok (num xs.length)
  | str s => .ok (num (utf16Length s))
  | obj fs => .ok ((lookup "length" fs).getD undefined)
  | _ => .ok undefined

/-- Element read `v[0]` for a value `v` that is not `undefined` or `null`. -/
def index0 : JSVal → JSVal
  | arr xs => xs.headD undefined
  | str s => if s.isEmpty then undefined else str (s.take 1)
  | obj fs => (lookup "0" fs).getD undefined
  | _ => undefined

/-- The comparison `v > 0`.  A number compares by value; `true` is one, `false` and
`null` are zero, `undefined` is not a number.  Any other operand is first turned
into text and the text is parsed as a number: `pos t` tells whether the text `t`
parses to a number above zero. -/
def gtZero (pos : String → Bool) (v : JSVal) : Except String Bool :=
  match v with
  | num n => .ok (decide (0 < n))
  | bool b => .ok b
  | undefined => .ok false
  | null => .ok false
  | str t => .ok (pos t)
  | v =>
    match toStr v with
    | .ok t => .ok (pos t)
    | .error e => .error e

/-- The argument of `new Date(v).toLocaleString()`.  Building the date converts an
array or object argument to a primitive, which throws exactly when `toStr` does;
the locale dependent text itself is not computed. -/
def dateArg (v : JSVal) : Except String JSVal :=
  match toStr v with
  | .ok _ => .ok v
  | .error e => .error e

/-- Text stored by the assignment `element.textContent = v`: `undefined` and `null`
store the empty text, anything else its `ToString` conversion. -/
def textContentStr (v : JSVal) : Except String String := elemStr v

/-- The operand printed by the template hole `v || fallback`. -/
def orElseStr (v : JSVal) (fallback : String) : Except String String :=
  if v.truthy then toStr v else .ok fallback

end JSVal

/-! ## The page -/

/-- A child of a container element: markup assigned through `innerHTML`, or an
element made by `createElement` and appended, with its class name and content. -/
inductive Node (α : Type) where
  | markup (html : String)
  | item (className : String) (content : α)
  deriving Repr

/-- One piece of the markup a template literal produces: text (literal or
interpolated, neither escaped), or the text of `new Date(date).toLocaleString()`,
which depends on the locale of the browser and is only filled in by `innerHTML`. -/
inductive Piece where
  | text (s : String)
  | localeString (date : JSVal)
  deriving Repr

/-- The characters of one piece, `toLocaleString` giving the text of a date. -/
def Piece.chars (toLocaleString : JSVal → String) : Piece → List Char
  | .text s => s.data
  | .localeString date => (toLocaleString date).data

/-- The characters of a template literal: its pieces one after the other. -/
def markupChars (toLocaleString : JSVal → String) : List Piece → List Char
  | [] => []
  | p :: ps => p.chars toLocaleString ++ markupChars toLocaleString ps

/-- The string a template literal evaluates to, which the script assigns to
`item.innerHTML`. -/
def innerHTML (toLocaleString : JSVal → String) (pieces : List Piece) : String :=
  String.mk (markupChars toLocaleString pieces)

/-- An `<option>` of the disaster selector. -/
structure SelectOption where
  value : String
  textContent : String
  deriving DecidableEq, Repr

/-- One line of console output. -/
inductive ConsoleEntry where
  | log (label : String) (data : JSVal)
  | error (label : String) (message : String)
  deriving Repr

/-- The functions that write to the page; `State.calls` records each invocation. -/
inductive View where
  | displayDisasters
  | updateDisasterSelect
  | displaySocialMedia
  | displayResources
  | displayOfficialUpdates
  deriving DecidableEq, Repr

/-- The object `formData` built by `createDisaster`. -/
structure FormData where
  title : String
  location_name : String
  description : String
  tags : List String
  deriving DecidableEq, Repr

/-- The object `formData` as a value. -/
def FormData.toJS (f : FormData) : JSVal :=
  obj [("title", str f.title), ("location_name", str f.location_name),
       ("description", str f.description), ("tags", arr (f.tags.map str))]

/-- The async function suspended at `await apiCall(...)`, to be resumed when the
request completes. -/
inductive Cont where
  | loadDisasters
  | loadSocialMediaForDisaster
  | loadResourcesForDisaster
  | loadOfficialUpdates
  | createDisaster (formData : FormData)
  | createDisasterGeocode
  deriving DecidableEq, Repr

/-- How an awaited `fetch` ends: the promise rejects (network failure), or a response
arrives with a status and a body that `response.json()` parses or rejects. -/
inductive Outcome where
  | rejected (message : String)
  | response (status : Nat) (body : Except String JSVal)

/-- The flag `response.ok`. -/
def okStatus (status : Nat) : Bool := decide (200 ≤ status) && decide (status ≤ 299)

/-- A failing outcome is one for which `apiCall` throws: a transport failure, a
status outside 200..299, or a body that is not JSON. -/
def Outcome.failed : Outcome → Bool
  | .rejected _ => true
  | .response status body =>
    !okStatus status || (match body with
      | .ok _ => false
      | .error _ => true)

/-- The page as the script sees it. -/
structure State where
  currentUser : String
  disasters : JSVal
  disastersList : List (Node (List Piece))
  disasterSelect : List (Node SelectOption)
  socialMediaFeed : List (Node (List Piece))
  resourcesList : List (Node (List Piece))
  officialUpdates : List (Node (List Piece))
  lastUpdate : Nat
  formResets : Nat
  alerts : List String
  console : List ConsoleEntry
  calls : List View
  fetches : List Request
  pending : List (Nat × Cont)

/-- The page when the script is loaded: `currentUser = "netrunnerX"`,
`disasters = []`, nothing rendered, nothing requested. -/
def State.initial : State :=
  { currentUser := "netrunnerX", disasters := arr [], disastersList := [],
    disasterSelect := [], socialMediaFeed := [], resourcesList := [],
    officialUpdates := [], lastUpdate := 0, formResets := 0, alerts := [],
    console := [], calls := [], fetches := [], pending := [] }

/-! ## UI helpers -/

/-- The helper `showError(message)`, which raises the alert `Error: message`. -/
def showError (message : String) (s : State) : State :=
  { s with alerts := s.alerts ++ ["Error: " ++ message] }

/-- The helper `showSuccess(message)`, which raises the alert `Success: message`. -/
def showSuccess (message : String) (s : State) : State :=
  { s with alerts := s.alerts ++ ["Success: " ++ message] }

/-- The call `console.error(label, error)`. -/
def consoleError (label message : String) (s : State) : State :=
  { s with console := s.console ++ [.error label message] }

/-- The call `console.log(label, data)`. -/
def consoleLog (label : String) (data : JSVal) (s : State) : State :=
  { s with console := s.console ++ [.log label data] }

/-- The helper `updateLastUpdate()` rewrites the last-update marker with the current time; the
state counts the rewrites. -/
def updateLastUpdate (s : State) : State :=
  { s with lastUpdate := s.lastUpdate + 1 }

/-- The loop `xs.forEach(x => container.appendChild(render x))`: elements are
appended one by one, and an exception in `render` stops the loop with the elements
appended so far left in place. -/
def forEachAppend {α : Type} (render : JSVal → Except String α) (className : String) :
    List JSVal → List (Node α) → Except String Unit × List (Node α)
  | [], container => (.ok (), container)
  | x :: xs, container =>
    match render x with
    | .ok content => forEachAppend render className xs (container ++ [.item className content])
    | .error e => (.error e, container)


/-- The statement `try { ... } catch (error) { handler }`, the block having run to
`r`: on an exception the handler runs on the state the block left behind. -/
def tryCatch (r : Except String Unit × State) (handler : String → State → State) : State :=
  match r with
  | (.ok (), s) => s
  | (.error e, s) => handler e s

/-- Sequencing of two statements: the second runs only when the first did not
throw. -/
def andThen (r : Except String Unit × State) (next : State → Except String Unit × State) :
    Except String Unit × State :=
  match r with
  | (.ok (), s) => next s
  | (.error e, s) => (.error e, s)

/-! ## View functions -/

/-- The text of the template literal of one tag: the span, with the extra class
for a tag equal to the string `urgent`. -/
def tagSpan (tag : JSVal) : Except String String :=
  match toStr tag with
  | .error e => .error e
  | .ok text =>
    .ok ("<span class=\"tag " ++ (if tag.strictEqStr "urgent" then "urgent" else "")
          ++ "\">" ++ text ++ "</span>")

/-- The text of `disaster.tags.map(...).join("")`: the spans of all tags one after
the other. -/
def tagSpans : List JSVal → Except String String
  | [] => .ok ""
  | tag :: rest =>
    match tagSpan tag with
    | .error e => .error e
    | .ok span =>
      match tagSpans rest with
      | .error e => .error e
      | .ok spans => .ok (span ++ spans)

/-- The text of the inner template literal for the delete button of the disaster
with identifier text `id`. -/
def deleteButton (id : String) : String :=
  "<button onclick=\"deleteDisaster('" ++ id ++ "')\" class=\"btn-danger\">Delete</button>"

/-- The part of the disaster template holding the three load buttons, `id` being
the text of `disaster.id`. -/
def loadButtons (id : String) : List Piece :=
  [ .text "<button onclick=\"loadSocialMediaForDisaster('", .text id,
    .text "')\" class=\"btn-secondary\">\n                    Load Social Media\n                </button>",
    .text "\n                ",
    .text "<button onclick=\"loadResourcesForDisaster('", .text id,
    .text "')\" class=\"btn-secondary\">\n                    Load Resources\n                </button>",
    .text "\n                ",
    .text "<button onclick=\"loadOfficialUpdates('", .text id,
    .text "')\" class=\"btn-secondary\">\n                    Official Updates\n                </button>" ]

/-- The template literal assigned to `item.innerHTML` in `displayDisasters`, piece
by piece, the texts of its holes being given: `created` is the argument of
`new Date`, `tags` the joined spans, `delete` the text of the last hole. -/
def disasterTemplate (title location owner : String) (created : JSVal)
    (description tags id delete : String) : List Piece :=
  [ .text "\n            <h3>", .text title,
    .text "</h3>\n            <div class=\"disaster-meta\">\n                <strong>Location:</strong> ",
    .text location,
    .text "<br>\n                <strong>Owner:</strong> ", .text owner,
    .text "<br>\n                <strong>Created:</strong> ", .localeString created,
    .text "\n            </div>\n            <p>", .text description,
    .text "</p>\n            <div class=\"tags\">", .text tags,
    .text "</div>\n            <div class=\"actions\">\n                " ]
  ++ loadButtons id ++
  [ .text "\n                ",
    .text delete,
    .text "\n            </div>\n        " ]

/-- Body of the `forEach` callback of `displayDisasters`: the template literal
assigned to `item.innerHTML` for one element of `disasters`, or the exception
raised while evaluating it.  Every value is interpolated as it is; the last hole
holds the delete button when
`currentUser === disaster.owner_id || currentUser === "netrunnerX"`. -/
def renderDisaster (currentUser : String) (disaster : JSVal) :
    Except String (List Piece) := do
  let tagsV ← disaster.get "tags"
  let tags ←
    if tagsV.truthy then
      match tagsV with
      | arr ts => tagSpans ts
      | _ => .error "disaster.tags.map is not a function"
    else .ok ""
  let title ← toStr (← disaster.get "title")
  let location ← orElseStr (← disaster.get "location_name") "Unknown"
  let ownerV ← disaster.get "owner_id"
  let owner ← toStr ownerV
  let created ← dateArg (← disaster.get "created_at")
  let description ← toStr (← disaster.get "description")
  let id ← toStr (← disaster.get "id")
  pure (disasterTemplate title location owner created description tags id
    (if ownerV.strictEqStr currentUser || currentUser == "netrunnerX" then deleteButton id
     else ""))

/-- The exception raised by `v.forEach(...)` when `v` is not an array. -/
def forEachError (name : String) : JSVal → String
  | undefined => "Cannot read properties of undefined (reading 'forEach')"
  | null => "Cannot read properties of null (reading 'forEach')"
  | _ => name ++ ".forEach is not a function"

/-- The view `displayDisasters()`: empties the list container, then appends one item per
element of the global `disasters`. -/
def displayDisasters (s : State) : Except String Unit × State :=
  let s := { s with calls := s.calls ++ [View.displayDisasters], disastersList := [] }
  match s.disasters with
  | arr xs =>
    let r := forEachAppend (renderDisaster s.currentUser) "disaster-item" xs s.disastersList
    (r.1, { s with disastersList := r.2 })
  | v => (.error (forEachError "disasters" v), s)

/-- Body of the `forEach` callback of `updateDisasterSelect`. -/
def renderOption (disaster : JSVal) : Except String SelectOption := do
  let value ← toStr (← disaster.get "id")
  let textContent ← textContentStr (← disaster.get "title")
  pure { value := value, textContent := textContent }

/-- The view `updateDisasterSelect()`: resets the selector to its prompt, then appends one
option per element of the global `disasters`. -/
def updateDisasterSelect (s : State) : Except String Unit × State :=
  let s := { s with calls := s.calls ++ [View.updateDisasterSelect],
                    disasterSelect := [.markup "<option value=\"\">Select Disaster</option>"] }
  match s.disasters with
  | arr xs =>
    let r := forEachAppend renderOption "" xs s.disasterSelect
    (r.1, { s with disasterSelect := r.2 })
  | v => (.error (forEachError "disasters" v), s)

/-- Body of the `forEach` callback of `displaySocialMedia`: the template literal
assigned to `item.innerHTML`. -/
def renderPost (post : JSVal) : Except String (List Piece) := do
  let user ← toStr (← post.get "user")
  let text ← toStr (← post.get "post")
  let timestamp ← dateArg (← post.get "timestamp")
  pure [ .text "\n            <div class=\"username\">@", .text user,
         .text "</div>\n            <div class=\"content\">", .text text,
         .text "</div>\n            <div class=\"timestamp\">", .localeString timestamp,
         .text "</div>\n        " ]

/-- The view `displaySocialMedia(posts)`: writes the heading, then the placeholder when
`!posts || posts.length === 0`, otherwise one item per post. -/
def displaySocialMedia (posts : JSVal) (s : State) : Except String Unit × State :=
  let s := { s with calls := s.calls ++ [View.displaySocialMedia],
                    socialMediaFeed := [.markup "<h3>Recent Social Media Posts</h3>"] }
  if !posts.truthy || posts.lengthIsZero then
    (.ok (), { s with socialMediaFeed :=
      s.socialMediaFeed ++ [.markup "<p>No social media posts found</p>"] })
  else
    match posts with
    | arr xs =>
      let r := forEachAppend renderPost "social-post" xs s.socialMediaFeed
      (r.1, { s with socialMediaFeed := r.2 })
    | v => (.error (forEachError "posts" v), s)

/-- Body of the `forEach` callback of `displayResources`: the template literal
assigned to `item.innerHTML`. -/
def renderResource (resource : JSVal) : Except String (List Piece) := do
  let name ← toStr (← resource.get "name")
  let location ← orElseStr (← resource.get "location_name") "Unknown"
  let type ← toStr (← resource.get "type")
  pure [ .text "\n            <strong>", .text name,
         .text "</strong><br>\n            <small>Location: ", .text location,
         .text "</small><br>\n            <span class=\"resource-type\">", .text type,
         .text "</span>\n        " ]

/-- The view `displayResources(resources)`: empties the container, then writes the
placeholder when `!resources || resources.length === 0`, otherwise one item per
resource. -/
def displayResources (resources : JSVal) (s : State) : Except String Unit × State :=
  let s := { s with calls := s.calls ++ [View.displayResources], resourcesList := [] }
  if !resources.truthy || resources.lengthIsZero then
    (.ok (), { s with resourcesList := [.markup "<p>No resources found nearby</p>"] })
  else
    match resources with
    | arr xs =>
      let r := forEachAppend renderResource "resource-item" xs s.resourcesList
      (r.1, { s with resourcesList := r.2 })
    | v => (.error (forEachError "resources" v), s)

/-- Body of the `forEach` callback of `displayOfficialUpdates`: the template
literal assigned to `item.innerHTML`. -/
def renderUpdate (update : JSVal) : Except String (List Piece) := do
  let source ← toStr (← update.get "source")
  let title ← toStr (← update.get "title")
  let content ← toStr (← update.get "content")
  let timestamp ← dateArg (← update.get "timestamp")
  pure [ .text "\n            <div class=\"update-source\">", .text source,
         .text "</div>\n            <strong>", .text title,
         .text "</strong><br>\n            <p>", .text content,
         .text "</p>\n            <small>", .localeString timestamp,
         .text "</small>\n        " ]

/-- The view `displayOfficialUpdates(updates)`: empties the container, then writes the
placeholder when `!updates || updates.length === 0`, otherwise one item per update. -/
def displayOfficialUpdates (updates : JSVal) (s : State) : Except String Unit × State :=
  let s := { s with calls := s.calls ++ [View.displayOfficialUpdates], officialUpdates := [] }
  if !updates.truthy || updates.lengthIsZero then
    (.ok (), { s with officialUpdates := [.markup "<p>No official updates available</p>"] })
  else
    match updates with
    | arr xs =>
      let r := forEachAppend renderUpdate "update-item" xs s.officialUpdates
      (r.1, { s with officialUpdates := r.2 })
    | v => (.error (forEachError "updates" v), s)


/-! ## The request gateway: `apiCall` -/

/-- The `catch` block of `apiCall`: log, alert the message, rethrow. -/
def apiCallCatch (message : String) (s : State) : State :=
  showError message (consoleError "API call failed:" message s)

/-- The function `apiCall(url, options)` up to `await fetch(...)`, called from the async function
`k`.  Either `fetch` has been called and `k` is suspended until the request
completes (the request is numbered by its position in `fetches`), or building the
arguments threw and the exception reaches `k` after the `catch` block has run. -/
def apiCall (url : String) (options : JSVal) (k : Cont) (s : State) :
    Except String Unit × State :=
  match apiRequest s.currentUser url options with
  | .ok r =>
    (.ok (), { s with fetches := s.fetches ++ [r],
                      pending := s.pending ++ [(s.fetches.length, k)] })
  | .error e => (.error e, apiCallCatch e s)

/-- The function `apiCall` from the completion of `fetch` on: the parsed body when the response
is `ok`, otherwise the exception thrown, the `catch` block having run. -/
def apiCallSettle (o : Outcome) (s : State) : Except String JSVal × State :=
  match o with
  | .rejected message => (.error message, apiCallCatch message s)
  | .response status body =>
    if okStatus status then
      match body with
      | .ok v => (.ok v, s)
      | .error message => (.error message, apiCallCatch message s)
    else
      let message := "HTTP error! status: " ++ toString status
      (.error message, apiCallCatch message s)

/-! ## Disaster functions -/

/-- White space and line terminators stripped by `String.prototype.trim`. -/
def isTrimChar (c : Char) : Bool :=
  [9, 10, 11, 12, 13, 32, 160, 5760, 8232, 8233, 8239, 8287, 12288, 65279].contains c.toNat
    || (decide (8192 ≤ c.toNat) && decide (c.toNat ≤ 8202))

/-- The method `trim` on the characters of a string. -/
def trimChars (cs : List Char) : List Char :=
  (cs.dropWhile isTrimChar).rdropWhile isTrimChar

/-- The method `split(",")` on the characters of a string: the text is cut at every comma, so
a text with `n` commas gives `n + 1` pieces, empty ones included. -/
def splitComma : List Char → List (List Char)
  | [] => [[]]
  | c :: cs =>
    if c = ',' then [] :: splitComma cs
    else
      match splitComma cs with
      | [] => [[c]]
      | piece :: pieces => (c :: piece) :: pieces

/-- The call `value.split(",")`. -/
def split (value : String) : List String := (splitComma value.data).map String.mk

/-- The call `t.trim()`. -/
def trim (t : String) : String := String.mk (trimChars t.data)

/-- The `tags` entry of `formData`:
`value.split(",").map((t) => t.trim()).filter((t) => t)`. -/
def parseTags (value : String) : List String :=
  ((split value).map trim).filter (fun t => (str t).truthy)

/-- The function `createDisaster()` up to its first `await`, the four form fields holding the
given texts. -/
def createDisaster (title locationName description tags : String) (s : State) : State :=
  let formData : FormData :=
    { title := title, location_name := locationName, description := description,
      tags := parseTags tags }
  tryCatch
    (apiCall "/disasters" (obj [("method", str "POST"), ("body", formData.toJS)])
      (.createDisaster formData) s)
    (fun _ => showError "Failed to create disaster")

/-- The statements of `createDisaster()` between the two `await`s: the success alert,
the form reset, and, when `formData.location_name || formData.description`, the
call of `apiCall("/geocode", ...)`, whose argument reads `disaster.id` first. -/
def createDisasterAfterPost (formData : FormData) (disaster : JSVal) (s : State) :
    Except String Unit × State :=
  let s := showSuccess "Disaster created successfully!" s
  let s := { s with formResets := s.formResets + 1 }
  if (str formData.location_name).truthy || (str formData.description).truthy then
    match disaster.get "id" with
    | .error e => (.error e, s)
    | .ok id =>
      apiCall "/geocode"
        (obj [("method", str "POST"),
              ("body", obj [("disaster_id", id),
                            ("location_name", str formData.location_name),
                            ("description", str formData.description)])])
        .createDisasterGeocode s
  else (.ok (), s)

/-- The function `createDisaster()` from the completion of `POST /disasters` (settled to `r` by
`apiCall`) up to its second `await`. -/
def createDisasterResume (formData : FormData) (r : Except String JSVal) (s : State) :
    State :=
  match r with
  | .error e => tryCatch (.error e, s) (fun _ => showError "Failed to create disaster")
  | .ok disaster =>
    tryCatch (createDisasterAfterPost formData disaster s)
      (fun _ => showError "Failed to create disaster")

/-- The function `createDisaster()` from the completion of `POST /geocode` on: the call sits in
the same `try` block as the creation. -/
def createDisasterGeocodeResume (r : Except String JSVal) (s : State) : State :=
  match r with
  | .error e => tryCatch (.error e, s) (fun _ => showError "Failed to create disaster")
  | .ok _ => s

/-- The function `loadDisasters()` up to its `await`. -/
def loadDisasters (s : State) : State :=
  tryCatch (apiCall "/disasters" undefined .loadDisasters s)
    (consoleError "Failed to load disasters:")

/-- The function `loadDisasters()` from the completion of `GET /disasters` on.  The first
component is how the promise of `loadDisasters` settles: the `try` block spans the
whole body and the `catch` block only logs. -/
def loadDisastersResume (r : Except String JSVal) (s : State) : Except String Unit × State :=
  match r with
  | .error e => (.ok (), tryCatch (.error e, s) (consoleError "Failed to load disasters:"))
  | .ok v =>
    (.ok (), tryCatch
      (andThen (displayDisasters { s with disasters := v }) updateDisasterSelect)
      (consoleError "Failed to load disasters:"))

/-! ## Social media, resources, official updates -/

/-- The function `loadSocialMediaForDisaster(disasterId)` up to its `await`. -/
def loadSocialMediaForDisaster (disasterId : JSVal) (s : State) : State :=
  match toStr disasterId with
  | .error e => tryCatch (.error e, s) (consoleError "Failed to load social media:")
  | .ok id =>
    tryCatch
      (apiCall ("/disasters/" ++ id ++ "/social-media") undefined
        .loadSocialMediaForDisaster s)
      (consoleError "Failed to load social media:")

/-- The function `loadSocialMediaForDisaster` from the completion of its request on. -/
def loadSocialMediaResume (r : Except String JSVal) (s : State) : State :=
  match r with
  | .error e => tryCatch (.error e, s) (consoleError "Failed to load social media:")
  | .ok posts =>
    tryCatch (displaySocialMedia posts s) (consoleError "Failed to load social media:")

/-- The function `loadResourcesForDisaster(disasterId)` up to its `await`. -/
def loadResourcesForDisaster (disasterId : JSVal) (s : State) : State :=
  match toStr disasterId with
  | .error e => tryCatch (.error e, s) (consoleError "Failed to load resources:")
  | .ok id =>
    tryCatch
      (apiCall ("/disasters/" ++ id ++ "/resources?lat=40.7128&lon=-74.0060&radius=10000")
        undefined .loadResourcesForDisaster s)
      (consoleError "Failed to load resources:")

/-- The function `loadResourcesForDisaster` from the completion of its request on. -/
def loadResourcesResume (r : Except String JSVal) (s : State) : State :=
  match r with
  | .error e => tryCatch (.error e, s) (consoleError "Failed to load resources:")
  | .ok resources =>
    tryCatch (displayResources resources s) (consoleError "Failed to load resources:")

/-- The argument `disasters[0].id` of the call made by `loadResources()`, when
`disasters.length > 0`; `none` when the guard is false, so that nothing is called. -/
def loadResourcesTarget (pos : String → Bool) (disasters : JSVal) :
    Except String (Option JSVal) :=
  match lengthOf disasters with
  | .error e => .error e
  | .ok len =>
    match gtZero pos len with
    | .error e => .error e
    | .ok false => .ok none
    | .ok true =>
      match (index0 disasters).get "id" with
      | .error e => .error e
      | .ok id => .ok (some id)

/-- The function `loadResources()`: when `disasters.length > 0`, calls
`loadResourcesForDisaster(disasters[0].id)`.  An exception here rejects the promise
of `loadResources`, which nobody observes. -/
def loadResources (pos : String → Bool) (s : State) : State :=
  match loadResourcesTarget pos s.disasters with
  | .ok (some id) => loadResourcesForDisaster id s
  | _ => s

/-- The function `loadOfficialUpdates(disasterId)` up to its `await`. -/
def loadOfficialUpdates (disasterId : JSVal) (s : State) : State :=
  match toStr disasterId with
  | .error e => tryCatch (.error e, s) (consoleError "Failed to load official updates:")
  | .ok id =>
    tryCatch
      (apiCall ("/disasters/" ++ id ++ "/official-updates") undefined
        .loadOfficialUpdates s)
      (consoleError "Failed to load official updates:")

/-- The function `loadOfficialUpdates` from the completion of its request on. -/
def loadOfficialUpdatesResume (r : Except String JSVal) (s : State) : State :=
  match r with
  | .error e => tryCatch (.error e, s) (consoleError "Failed to load official updates:")
  | .ok updates =>
    tryCatch (displayOfficialUpdates updates s)
      (consoleError "Failed to load official updates:")

/-! ## Events -/

/-- The three socket messages the script listens to. -/
inductive PushType where
  | disaster_updated
  | social_media_updated
  | resources_updated
  deriving DecidableEq, Repr

/-- The handlers registered by `initializeWebSocket`, run on a message with payload
`data`.  An exception thrown by a handler ends it. -/
def onMessage (pos : String → Bool) (type : PushType) (data : JSVal) (s : State) : State :=
  match type with
  | .disaster_updated =>
    updateLastUpdate (loadDisasters (consoleLog "Disaster updated:" data s))
  | .social_media_updated =>
    let s := consoleLog "Social media updated:" data s
    match data.get "disaster_id" with
    | .error _ => s
    | .ok id =>
      updateLastUpdate (if id.truthy then loadSocialMediaForDisaster id s else s)
  | .resources_updated =>
    updateLastUpdate (loadResources pos (consoleLog "Resources updated:" data s))

/-- One task of the event loop. -/
inductive Event where
  | ready
  | selectUser (value : String)
  | submitDisaster (title locationName description tags : String)
  | clickLoadSocialMedia (id : String)
  | clickLoadResources (id : String)
  | clickOfficialUpdates (id : String)
  | message (type : PushType) (data : JSVal)
  | complete (id : Nat) (o : Outcome)

/-- Removes the awaited request numbered `id` from the pending list and returns the
function waiting for it. -/
def takePending (id : Nat) : List (Nat × Cont) → Option (Cont × List (Nat × Cont))
  | [] => none
  | (i, k) :: rest =>
    if i = id then some (k, rest)
    else
      match takePending id rest with
      | some (k', rest') => some (k', (i, k) :: rest')
      | none => none

/-- Resumes the function `k` when its request ends with outcome `o`. -/
def resume (k : Cont) (o : Outcome) (s : State) : State :=
  let r := apiCallSettle o s
  match k with
  | .loadDisasters => (loadDisastersResume r.1 r.2).2
  | .loadSocialMediaForDisaster => loadSocialMediaResume r.1 r.2
  | .loadResourcesForDisaster => loadResourcesResume r.1 r.2
  | .loadOfficialUpdates => loadOfficialUpdatesResume r.1 r.2
  | .createDisaster formData => createDisasterResume formData r.1 r.2
  | .createDisasterGeocode => createDisasterGeocodeResume r.1 r.2

/-- Runs one task to completion.  `ready` is `DOMContentLoaded` (the handlers are
registered and `loadDisasters()` is called), `complete id o` the completion of the
request numbered `id`; a completion for a request nobody awaits does nothing. -/
def step (pos : String → Bool) (s : State) (e : Event) : State :=
  match e with
  | .ready => loadDisasters s
  | .selectUser value => consoleLog "User changed to:" (str value) { s with currentUser := value }
  | .submitDisaster title locationName description tags =>
    createDisaster title locationName description tags s
  | .clickLoadSocialMedia id => loadSocialMediaForDisaster (str id) s
  | .clickLoadResources id => loadResourcesForDisaster (str id) s
  | .clickOfficialUpdates id => loadOfficialUpdates (str id) s
  | .message type data => onMessage pos type data s
  | .complete id o =>
    match takePending id s.pending with
    | none => s
    | some (k, rest) => resume k o { s with pending := rest }

/-- Runs a sequence of tasks in order. -/
def run (pos : String → Bool) (s : State) (es : List Event) : State :=
  es.foldl (step pos) s

/-- The request made by `apiCall("/disasters")` for the user `currentUser`. -/
def disastersRequest (currentUser : String) : Request :=
  { url := API_BASE_URL ++ "/disasters"
    init := [("headers", obj [("Content-Type", str "application/json"),
                               ("x-user-id", str currentUser)])] }


/-! ## Reference notions used in the statements -/

/-- The body `apiCall` returns for an outcome, if it returns one. -/
def Outcome.parsed : Outcome → Option JSVal
  | .response status (.ok v) => if okStatus status then some v else none
  | _ => none

/-- The body of the last successful outcome in a list of completions taken in the
order they happen, or `previous` when none of them succeeded. -/
def lastCompleted (completions : List (Nat × Outcome)) (previous : JSVal) : JSVal :=
  completions.foldl (fun cached c => c.2.parsed.getD cached) previous

/-- The page with its console output forgotten. -/
def State.eraseConsole (s : State) : State := { s with console := [] }

/-- Two pages that differ at most in their console output. -/
def SameButConsole (a b : State) : Prop := a.eraseConsole = b.eraseConsole

/-- Two runs of a statement that end the same way, on pages that differ at most in
their console output. -/
def SameRun {α : Type} (x y : α × State) : Prop := x.1 = y.1 ∧ SameButConsole x.2 y.2

/-- The value read by `data.disaster_id` from a socket payload, if the read does
not throw. -/
def payloadDisasterId (data : JSVal) : Option JSVal :=
  match data.get "disaster_id" with
  | .ok id => some id
  | .error _ => none

/-- The awaited requests are numbered distinctly, by requests that have been made. -/
def PendingOk (s : State) : Prop :=
  (s.pending.map Prod.fst).Nodup ∧ ∀ p ∈ s.pending, p.1 < s.fetches.length

/-- A disaster record as the data model describes it. -/
structure Disaster where
  id : String
  title : String
  location_name : String
  description : String
  tags : List String
  owner_id : String
  created_at : String
  deriving DecidableEq, Repr

/-- A disaster record as the value found in the disaster list. -/
def Disaster.toJS (d : Disaster) : JSVal :=
  obj [("id", str d.id), ("title", str d.title), ("location_name", str d.location_name),
       ("description", str d.description), ("tags", arr (d.tags.map str)),
       ("owner_id", str d.owner_id), ("created_at", str d.created_at)]

/-- A text that can fill a hole between tags without opening a tag of its own: it
holds no `<`. -/
def plainText (s : String) : Bool := s.data.all (fun c => c != '<')

/-- A text that can fill a hole inside a double-quoted attribute value and stay
there as it is: it holds no `<`, no `"` (which would end the value) and no `&`
(which would start a character reference). -/
def plainAttribute (s : String) : Bool :=
  s.data.all (fun c => c != '<' && c != '"' && c != '&')

/-- A disaster record whose texts are plain: the identifier, which the template puts
inside `onclick="..."`, as an attribute text, the others as texts between tags. -/
def Disaster.plain (d : Disaster) : Bool :=
  plainAttribute d.id && plainText d.title && plainText d.location_name &&
  plainText d.description && d.tags.all plainText && plainText d.owner_id

/-- Whether `q` and `r` differ at a position both of them have. -/
def mismatchWithin : List Char → List Char → Bool
  | q :: qs, r :: rs => if q = r then mismatchWithin qs rs else true
  | _, _ => false

/-- Whether every `<` of the text is followed, inside the text, by characters that
differ from `q`. -/
def safeFor (q : List Char) : List Char → Bool
  | [] => true
  | c :: rest => (c != '<' || mismatchWithin q rest) && safeFor q rest

/-- The characters that follow `<` at the start of the delete button, up to the
first letter of the function it calls. -/
def deleteStart : List Char := "button onclick=\"d".data

/-! ## Theorems -/

theorem lookup_cons (k k' : String) (v : JSVal) (rest : List (String × JSVal)) :
    lookup k ((k', v) :: rest) = (match lookup k rest with
      | some w => some w
      | none => if k' = k then some v else none) := rfl

theorem lookup_append (k : String) (a b : List (String × JSVal)) :
    lookup k (a ++ b) = (match lookup k b with
      | some w => some w
      | none => lookup k a) := by
  induction a with
  | nil => cases h : lookup k b <;> simp [lookup, h]
  | cons p a ih =>
    obtain ⟨k', v⟩ := p
    rw [List.cons_append, lookup_cons, ih, lookup_cons]
    cases lookup k b <;> cases lookup k a <;> simp

theorem header_of_built (u url : String) (base hs : List (String × JSVal)) :
    Request.header
      { url := url
        init := base ++ [("headers", obj ([("Content-Type", str "application/json"),
                            ("x-user-id", str u)] ++ hs))] } "x-user-id"
      = some ((lookup "x-user-id" hs).getD (str u)) := by
  have h1 : lookup "headers" (base ++ [("headers", obj ([("Content-Type",
      str "application/json"), ("x-user-id", str u)] ++ hs))]) = some (obj ([("Content-Type",
      str "application/json"), ("x-user-id", str u)] ++ hs)) := by
    rw [lookup_append]; simp [lookup]
  have h2 : lookup "x-user-id" ([("Content-Type", str "application/json"),
      ("x-user-id", str u)] ++ hs) = some ((lookup "x-user-id" hs).getD (str u)) := by
    rw [lookup_append]
    cases lookup "x-user-id" hs <;> simp [lookup]
  simp only [Request.header, h1, h2]

/-- C1 (as stated, refuted): with the current user `netrunnerX`, a caller that
passes `headers: { "x-user-id": "citizen1" }` gets a request whose `x-user-id`
header is `citizen1`, not the current user. -/
theorem apiCall_identity_header_overridden :
    ∃ r, apiRequest "netrunnerX" "/disasters"
        (obj [("method", str "GET"), ("headers", obj [("x-user-id", str "citizen1")])]) = .ok r
      ∧ r.header "x-user-id" = some (str "citizen1")
      ∧ r.header "x-user-id" ≠ some (str "netrunnerX") := by
  refine ⟨_, rfl, rfl, fun h => ?_⟩
  exact absurd (show some (str "citizen1") = some (str "netrunnerX") from h) (by simp)

/-- C1 (amended): `apiCall(url, options)` builds no request only when `options` is
`null` (reading `options.headers` throws); otherwise the `headers` object passed to
`fetch` has `x-user-id` equal to the value the caller supplied under that key in
`options.headers` when there is one, and equal to `currentUser` when there is none. -/
theorem apiCall_identity_header (currentUser url : String) (options : JSVal) :
    (options = null ∧ ∃ e, apiRequest currentUser url options = .error e) ∨
    (options ≠ null ∧ ∃ r, apiRequest currentUser url options = .ok r ∧
      r.url = API_BASE_URL ++ url ∧
      r.header "x-user-id" =
        some ((callerHeader options "x-user-id").getD (str currentUser))) := by
  cases options <;>
    simp [apiRequest, JSVal.get, callerHeader, ownProps, lookup] <;>
    first
      | exact header_of_built _ _ [] []
      | exact header_of_built _ _ _ []
      | exact header_of_built _ _ _ _

/-! ### Reloading on `disaster_updated` -/

theorem apiRequest_undefined (u url : String) :
    apiRequest u url undefined =
      .ok { url := API_BASE_URL ++ url
            init := [("headers", obj [("Content-Type", str "application/json"),
                                       ("x-user-id", str u)])] } := rfl

theorem loadDisasters_eq (s : State) :
    loadDisasters s =
      { s with fetches := s.fetches ++ [disastersRequest s.currentUser],
               pending := s.pending ++ [(s.fetches.length, Cont.loadDisasters)] } := by
  simp [loadDisasters, apiCall, apiRequest_undefined, disastersRequest, tryCatch]

theorem onMessage_disaster_updated (pos : String → Bool) (data : JSVal) (s : State) :
    (onMessage pos .disaster_updated data s).fetches
        = s.fetches ++ [disastersRequest s.currentUser] ∧
    (onMessage pos .disaster_updated data s).pending
        = s.pending ++ [(s.fetches.length, Cont.loadDisasters)] ∧
    (onMessage pos .disaster_updated data s).currentUser = s.currentUser ∧
    (onMessage pos .disaster_updated data s).disasters = s.disasters := by
  simp [onMessage, loadDisasters_eq, updateLastUpdate, consoleLog]

theorem run_disaster_updated (pos : String → Bool) (payloads : List JSVal) :
    ∀ s : State,
      (run pos s (payloads.map (Event.message .disaster_updated))).fetches
          = s.fetches ++ List.replicate payloads.length (disastersRequest s.currentUser) ∧
      (run pos s (payloads.map (Event.message .disaster_updated))).pending
          = s.pending ++ (List.range' s.fetches.length payloads.length).map
              (fun i => (i, Cont.loadDisasters)) := by
  induction payloads with
  | nil => intro s; simp [run]
  | cons p ps ih =>
    intro s
    obtain ⟨hf, hp, hu, _⟩ := onMessage_disaster_updated pos p s
    have h := ih (onMessage pos .disaster_updated p s)
    simp only [run, List.map_cons, List.foldl_cons, step] at h ⊢
    rw [hf, hp, hu] at h
    obtain ⟨h1, h2⟩ := h
    refine ⟨?_, ?_⟩
    · rw [h1]; simp [List.replicate_succ]
    · rw [h2]; simp [List.range'_succ]

/-- C2 (as stated, refuted): after the initial load is in flight, two
`disaster_updated` messages bring the number of `GET /disasters` requests to three,
all three still awaited. -/
theorem disaster_updated_storm_exceeds_two :
    (run (fun _ => false) State.initial
        [.ready, .message .disaster_updated null, .message .disaster_updated null]).fetches
      = [disastersRequest "netrunnerX", disastersRequest "netrunnerX",
         disastersRequest "netrunnerX"] ∧
    (run (fun _ => false) State.initial
        [.ready, .message .disaster_updated null, .message .disaster_updated null]).pending
      = [(0, Cont.loadDisasters), (1, Cont.loadDisasters), (2, Cont.loadDisasters)] ∧
    ¬ ((run (fun _ => false) State.initial
        [.ready, .message .disaster_updated null,
         .message .disaster_updated null]).fetches.length ≤ 2) := by
  refine ⟨rfl, rfl, by decide⟩

/-- C2 (amended): every `disaster_updated` message issues its own `GET /disasters`
request, whatever is in flight: `N` messages handled from any state add exactly `N`
requests for the current user to the requests made so far and `N` awaiting
`loadDisasters` calls to the pending ones. -/
theorem disaster_updated_fetch_per_notification (pos : String → Bool) (s : State)
    (payloads : List JSVal) :
    (run pos s (payloads.map (Event.message .disaster_updated))).fetches
        = s.fetches ++ List.replicate payloads.length (disastersRequest s.currentUser) ∧
    (run pos s (payloads.map (Event.message .disaster_updated))).pending
        = s.pending ++ (List.range' s.fetches.length payloads.length).map
            (fun i => (i, Cont.loadDisasters)) :=
  run_disaster_updated pos payloads s

/-! ### A failed reload -/

theorem apiCallSettle_failed (o : Outcome) (s : State) (h : o.failed = true) :
    ∃ message, apiCallSettle o s = (.error message, apiCallCatch message s) := by
  cases o with
  | rejected m => exact ⟨m, rfl⟩
  | response status body =>
    by_cases hs : okStatus status = true
    · cases body with
      | error m => exact ⟨m, by simp [apiCallSettle, hs]⟩
      | ok v => simp [Outcome.failed, hs] at h
    · exact ⟨"HTTP error! status: " ++ toString status, by simp [apiCallSettle, hs]⟩

/-- C4: when `GET /disasters` fails (transport failure, status outside 200..299, or
a body that is not JSON), `loadDisasters` settles normally instead of rethrowing,
the cached `disasters` is what it was, neither `displayDisasters` nor
`updateDisasterSelect` is invoked, and both containers are untouched. -/
theorem loadDisasters_failure_keeps_cache (s : State) (o : Outcome)
    (h : o.failed = true) :
    (loadDisastersResume (apiCallSettle o s).1 (apiCallSettle o s).2).1 = .ok () ∧
    (loadDisastersResume (apiCallSettle o s).1 (apiCallSettle o s).2).2.disasters
      = s.disasters ∧
    (loadDisastersResume (apiCallSettle o s).1 (apiCallSettle o s).2).2.calls = s.calls ∧
    (loadDisastersResume (apiCallSettle o s).1 (apiCallSettle o s).2).2.disastersList
      = s.disastersList ∧
    (loadDisastersResume (apiCallSettle o s).1 (apiCallSettle o s).2).2.disasterSelect
      = s.disasterSelect ∧
    (resume .loadDisasters o s).disasters = s.disasters ∧
    (resume .loadDisasters o s).calls = s.calls := by
  obtain ⟨m, hm⟩ := apiCallSettle_failed o s h
  simp [resume, hm, loadDisastersResume, consoleError, apiCallCatch, showError, tryCatch]

/-- C4 at a concrete input: a `500` response on a page caching one disaster. -/
theorem loadDisasters_failure_keeps_cache_witness :
    (Outcome.response 500 (.ok null)).failed = true ∧
    (loadDisastersResume
        (apiCallSettle (.response 500 (.ok null))
          { State.initial with disasters := arr [obj [("id", str "d1")]] }).1
        (apiCallSettle (.response 500 (.ok null))
          { State.initial with disasters := arr [obj [("id", str "d1")]] }).2).2.disasters
      = arr [obj [("id", str "d1")]] :=
  ⟨by decide,
   (loadDisasters_failure_keeps_cache
      { State.initial with disasters := arr [obj [("id", str "d1")]] }
      (.response 500 (.ok null)) (by decide)).2.1⟩

/-! ### Order in which reload responses are applied -/

theorem displayDisasters_frame (s : State) :
    (displayDisasters s).2.disasters = s.disasters ∧
    (displayDisasters s).2.pending = s.pending ∧
    (displayDisasters s).2.currentUser = s.currentUser ∧
    (displayDisasters s).2.fetches = s.fetches := by
  cases h : s.disasters <;> simp [displayDisasters, h]

theorem updateDisasterSelect_frame (s : State) :
    (updateDisasterSelect s).2.disasters = s.disasters ∧
    (updateDisasterSelect s).2.pending = s.pending ∧
    (updateDisasterSelect s).2.currentUser = s.currentUser ∧
    (updateDisasterSelect s).2.fetches = s.fetches := by
  cases h : s.disasters <;> simp [updateDisasterSelect, h]

theorem loadDisastersResume_ok (v : JSVal) (s : State) :
    (loadDisastersResume (.ok v) s).2.disasters = v ∧
    (loadDisastersResume (.ok v) s).2.pending = s.pending := by
  simp only [loadDisastersResume]
  obtain ⟨h1, h2, -, -⟩ := displayDisasters_frame { s with disasters := v }
  generalize displayDisasters { s with disasters := v } = r at h1 h2 ⊢
  obtain ⟨r1, t1⟩ := r
  simp only at h1 h2
  cases r1 with
  | error e => simp [andThen, tryCatch, consoleError, h1, h2]
  | ok u =>
    obtain ⟨h3, h4, -, -⟩ := updateDisasterSelect_frame t1
    simp only [andThen]
    generalize updateDisasterSelect t1 = r' at h3 h4 ⊢
    obtain ⟨r2, t2⟩ := r'
    simp only at h3 h4
    cases r2 <;> simp [tryCatch, consoleError, h1, h2, h3, h4]

theorem resume_loadDisasters (o : Outcome) (s : State) :
    (resume .loadDisasters o s).disasters = o.parsed.getD s.disasters ∧
    (resume .loadDisasters o s).pending = s.pending := by
  cases o with
  | rejected m =>
    simp [resume, apiCallSettle, loadDisastersResume, consoleError, apiCallCatch, showError,
      Outcome.parsed, tryCatch]
  | response status body =>
    by_cases hs : okStatus status = true
    · cases body with
      | error m =>
        simp [resume, apiCallSettle, hs, loadDisastersResume, consoleError, apiCallCatch,
          showError, Outcome.parsed, tryCatch]
      | ok v =>
        have h := loadDisastersResume_ok v s
        simpa [resume, apiCallSettle, hs, Outcome.parsed] using h
    · cases body <;>
        simp [resume, apiCallSettle, hs, loadDisastersResume, consoleError, apiCallCatch,
          showError, Outcome.parsed, tryCatch]

theorem takePending_of_mem (id : Nat) (k : Cont) :
    ∀ l : List (Nat × Cont), (l.map Prod.fst).Nodup → (id, k) ∈ l →
      ∃ rest, takePending id l = some (k, rest) ∧ (rest.map Prod.fst).Nodup ∧
        ∀ p, p ∈ rest ↔ (p ∈ l ∧ p.1 ≠ id) := by
  intro l
  induction l with
  | nil => intro _ h; simp at h
  | cons q l ih =>
    obtain ⟨i, k'⟩ := q
    intro hnd hmem
    simp only [List.map_cons, List.nodup_cons] at hnd
    obtain ⟨hi, hl⟩ := hnd
    by_cases hid : i = id
    · subst hid
      have hk : k' = k := by
        rcases List.mem_cons.mp hmem with h | h
        · exact (Prod.mk.inj h).2.symm
        · exact absurd (List.mem_map_of_mem Prod.fst h) hi
      subst hk
      refine ⟨l, by simp [takePending], hl, ?_⟩
      intro p
      constructor
      · intro hp
        refine ⟨List.mem_cons_of_mem _ hp, ?_⟩
        intro hpe
        exact hi (hpe ▸ List.mem_map_of_mem Prod.fst hp)
      · rintro ⟨hp, hne⟩
        rcases List.mem_cons.mp hp with h | h
        · subst h; exact absurd rfl hne
        · exact h
    · have hmem' : (id, k) ∈ l := by
        rcases List.mem_cons.mp hmem with h | h
        · exact absurd (Prod.mk.inj h).1.symm hid
        · exact h
      obtain ⟨rest, hr, hnd', hiff⟩ := ih hl hmem'
      refine ⟨(i, k') :: rest, by simp [takePending, hid, hr], ?_, ?_⟩
      · simp only [List.map_cons, List.nodup_cons]
        refine ⟨?_, hnd'⟩
        intro hin
        obtain ⟨p, hp, hpe⟩ := List.mem_map.mp hin
        exact hi (List.mem_map.mpr ⟨p, ((hiff p).mp hp).1, hpe⟩)
      · intro p
        constructor
        · intro hp
          rcases List.mem_cons.mp hp with h | h
          · subst h; exact ⟨List.mem_cons_self _ _, hid⟩
          · exact ⟨List.mem_cons_of_mem _ ((hiff p).mp h).1, ((hiff p).mp h).2⟩
        · rintro ⟨hp, hne⟩
          rcases List.mem_cons.mp hp with h | h
          · subst h; exact List.mem_cons_self _ _
          · exact List.mem_cons_of_mem _ ((hiff p).mpr ⟨h, hne⟩)

theorem run_completions (pos : String → Bool) (cs : List (Nat × Outcome)) :
    ∀ s : State, (s.pending.map Prod.fst).Nodup → (cs.map Prod.fst).Nodup →
      (∀ c ∈ cs, (c.1, Cont.loadDisasters) ∈ s.pending) →
      (run pos s (cs.map (fun c => Event.complete c.1 c.2))).disasters
        = lastCompleted cs s.disasters := by
  induction cs with
  | nil => intro s _ _ _; rfl
  | cons c cs ih =>
    obtain ⟨id, o⟩ := c
    intro s hids hcs hp
    simp only [List.map_cons, List.nodup_cons] at hcs
    obtain ⟨hid, hcs'⟩ := hcs
    obtain ⟨rest, hr, hnd, hiff⟩ :=
      takePending_of_mem id .loadDisasters s.pending hids (hp (id, o) (List.mem_cons_self _ _))
    obtain ⟨hd, hpend⟩ := resume_loadDisasters o { s with pending := rest }
    have hstep : step pos s (.complete id o)
        = resume .loadDisasters o { s with pending := rest } := by
      simp [step, hr]
    have h := ih (resume .loadDisasters o { s with pending := rest })
      (by rw [hpend]; exact hnd) hcs'
      (by
        intro c hc
        rw [hpend]
        refine (hiff _).mpr ⟨hp c (List.mem_cons_of_mem _ hc), ?_⟩
        intro hce
        exact hid (hce ▸ List.mem_map_of_mem Prod.fst hc))
    simp only [run, List.map_cons, List.foldl_cons, hstep] at h ⊢
    rw [h, hd]
    rfl

/-- C3 (as stated, refuted): two reloads are issued, request 0 then request 1; the
response to request 1 (one disaster) arrives first and the response to request 0
(no disaster) second.  With nothing left in flight the cache holds the body of
request 0, the earlier one, which has overwritten the body of request 1. -/
theorem loadDisasters_older_response_overwrites :
    (run (fun _ => false) State.initial
        [.ready, .message .disaster_updated null,
         .complete 1 (.response 200 (.ok (arr [obj [("id", str "d1")]])))]).disasters
      = arr [obj [("id", str "d1")]] ∧
    (run (fun _ => false) State.initial
        [.ready, .message .disaster_updated null,
         .complete 1 (.response 200 (.ok (arr [obj [("id", str "d1")]]))),
         .complete 0 (.response 200 (.ok (arr [])))]).disasters = arr [] ∧
    (run (fun _ => false) State.initial
        [.ready, .message .disaster_updated null,
         .complete 1 (.response 200 (.ok (arr [obj [("id", str "d1")]]))),
         .complete 0 (.response 200 (.ok (arr [])))]).pending = [] ∧
    arr [] ≠ arr [obj [("id", str "d1")]] := by
  refine ⟨rfl, rfl, rfl, by simp⟩

/-- C3 (amended): responses are applied in the order they complete.  When awaited
`loadDisasters` requests complete in any order, the cached `disasters` ends up as
the body of the last one that completed successfully, whichever was issued first,
and stays what it was when none succeeded. -/
theorem loadDisasters_last_completed_wins (pos : String → Bool) (s : State)
    (completions : List (Nat × Outcome))
    (hids : (s.pending.map Prod.fst).Nodup)
    (hdistinct : (completions.map Prod.fst).Nodup)
    (hawaited : ∀ c ∈ completions, (c.1, Cont.loadDisasters) ∈ s.pending) :
    (run pos s (completions.map (fun c => Event.complete c.1 c.2))).disasters
      = lastCompleted completions s.disasters :=
  run_completions pos completions s hids hdistinct hawaited

/-- C3 (amended) at a concrete input: the initial load and a reload are awaited as
requests 0 and 1, and complete in the order 1, 0. -/
theorem loadDisasters_last_completed_wins_witness :
    (run (fun _ => false)
        (run (fun _ => false) State.initial [.ready, .message .disaster_updated null])
        [.complete 1 (.response 200 (.ok (arr [obj [("id", str "d1")]]))),
         .complete 0 (.response 200 (.ok (arr [])))]).disasters
      = lastCompleted
          [(1, .response 200 (.ok (arr [obj [("id", str "d1")]]))),
           (0, .response 200 (.ok (arr [])))] (arr []) :=
  loadDisasters_last_completed_wins (fun _ => false)
    (run (fun _ => false) State.initial [.ready, .message .disaster_updated null])
    [(1, .response 200 (.ok (arr [obj [("id", str "d1")]]))),
     (0, .response 200 (.ok (arr [])))]
    (by decide) (by decide) (by decide)

/-! ### Creation followed by a failed geocoding call -/

/-- C5 (evaluated on the script): a disaster `Flood A` located `Downtown` is
submitted, `POST /disasters` answers `201` with `{id: "x1"}` and the following
`POST /geocode` answers `500`.  The alerts raised are the creation success, the
HTTP error of the geocoding call, and then the creation-failure message. -/
theorem createDisaster_geocode_failure_alerts :
    (run (fun _ => false) State.initial
        [.submitDisaster "Flood A" "Downtown" "" "",
         .complete 0 (.response 201 (.ok (obj [("id", str "x1")]))),
         .complete 1 (.response 500 (.ok null))]).alerts
      = ["Success: Disaster created successfully!", "Error: HTTP error! status: 500",
         "Error: Failed to create disaster"] ∧
    (run (fun _ => false) State.initial
        [.submitDisaster "Flood A" "Downtown" "" "",
         .complete 0 (.response 201 (.ok (obj [("id", str "x1")]))),
         .complete 1 (.response 500 (.ok null))]).fetches.map Request.url
      = ["http://localhost:8000/api/disasters", "http://localhost:8000/api/geocode"] := by
  decide

/-! ### Views on an empty or missing collection -/

/-- C7 (evaluated on the script): after the initial load answers with an empty
list, `displayDisasters` has run and left the list container empty, with no
placeholder in it; on a cache that is `null` it throws.  The three other views
write a placeholder for an empty list. -/
theorem displayDisasters_no_placeholder :
    (run (fun _ => false) State.initial
        [.ready, .complete 0 (.response 200 (.ok (arr [])))]).calls
      = [View.displayDisasters, View.updateDisasterSelect] ∧
    (run (fun _ => false) State.initial
        [.ready, .complete 0 (.response 200 (.ok (arr [])))]).disastersList = [] ∧
    (displayDisasters { State.initial with disasters := null }).1
      = .error "Cannot read properties of null (reading 'forEach')" ∧
    (displaySocialMedia (arr []) State.initial).2.socialMediaFeed
      = [.markup "<h3>Recent Social Media Posts</h3>",
         .markup "<p>No social media posts found</p>"] ∧
    (displayResources (arr []) State.initial).2.resourcesList
      = [.markup "<p>No resources found nearby</p>"] ∧
    (displayOfficialUpdates (arr []) State.initial).2.officialUpdates
      = [.markup "<p>No official updates available</p>"] := by
  refine ⟨by decide, rfl, rfl, rfl, rfl, rfl⟩

/-! ### Resources on `resources_updated` -/

/-- C8 (evaluated on the script): with two disasters `d1` and `d2` cached, a
`resources_updated` message makes a single resources request, for `d1`. -/
theorem loadResources_first_disaster_only :
    (run (fun _ => false) State.initial
        [.ready,
         .complete 0 (.response 200
            (.ok (arr [obj [("id", str "d1")], obj [("id", str "d2")]]))),
         .message .resources_updated (obj [])]).fetches.map Request.url
      = ["http://localhost:8000/api/disasters",
         "http://localhost:8000/api/disasters/d1/resources?lat=40.7128&lon=-74.0060&radius=10000"]
    := by
  decide

theorem forEachAppend_map {α : Type} (render : JSVal → Except String α) (className : String)
    (f : JSVal → α) :
    ∀ (xs : List JSVal) (container : List (Node α)),
      (∀ x ∈ xs, render x = .ok (f x)) →
      forEachAppend render className xs container
        = (.ok (), container ++ xs.map (fun x => Node.item className (f x))) := by
  intro xs
  induction xs with
  | nil => intro c _; simp [forEachAppend]
  | cons x xs ih =>
    intro c h
    have hx := h x (List.mem_cons_self _ _)
    simp only [forEachAppend, hx]
    rw [ih _ (fun y hy => h y (List.mem_cons_of_mem _ hy))]
    simp

/-! ### Tags sent by `createDisaster` -/

theorem splitComma_ne_nil (cs : List Char) : splitComma cs ≠ [] := by
  cases cs with
  | nil => simp [splitComma]
  | cons c cs =>
    simp only [splitComma]
    split
    · simp
    · split <;> simp

theorem intercalate_cons_cons (sep a b : List Char) (rest : List (List Char)) :
    List.intercalate sep (a :: b :: rest) = a ++ sep ++ List.intercalate sep (b :: rest) := by
  simp [List.intercalate, List.intersperse]

theorem intercalate_head_cons (sep : List Char) (c : Char) (a : List Char)
    (rest : List (List Char)) :
    List.intercalate sep ((c :: a) :: rest) = c :: List.intercalate sep (a :: rest) := by
  cases rest with
  | nil => simp [List.intercalate, List.intersperse]
  | cons b rest => simp [intercalate_cons_cons]

theorem splitComma_intercalate (cs : List Char) :
    List.intercalate [','] (splitComma cs) = cs := by
  induction cs with
  | nil => simp [splitComma, List.intercalate, List.intersperse]
  | cons c cs ih =>
    simp only [splitComma]
    split
    next hc =>
      subst hc
      rcases hs : splitComma cs with _ | ⟨p, ps⟩
      · exact absurd hs (splitComma_ne_nil cs)
      · rw [intercalate_cons_cons, ← hs, ih]; rfl
    next hc =>
      rcases hs : splitComma cs with _ | ⟨p, ps⟩
      · exact absurd hs (splitComma_ne_nil cs)
      · simp only
        rw [intercalate_head_cons, ← hs, ih]

theorem splitComma_pieces (cs : List Char) :
    ∀ p ∈ splitComma cs, ',' ∉ p ∧ ∀ c ∈ p, c ∈ cs := by
  induction cs with
  | nil => intro p hp; simp [splitComma] at hp; subst hp; simp
  | cons c cs ih =>
    intro p hp
    simp only [splitComma] at hp
    split at hp
    next hc =>
      rcases List.mem_cons.mp hp with h | h
      · subst h; simp
      · exact ⟨(ih p h).1, fun x hx => List.mem_cons_of_mem _ ((ih p h).2 x hx)⟩
    next hc =>
      rcases hs : splitComma cs with _ | ⟨q, qs⟩
      · exact absurd hs (splitComma_ne_nil cs)
      · rw [hs] at hp ih
        simp only at hp
        rcases List.mem_cons.mp hp with h | h
        · subst h
          have hq := ih q (List.mem_cons_self _ _)
          refine ⟨?_, ?_⟩
          · intro hmem
            rcases List.mem_cons.mp hmem with h' | h'
            · exact hc h'.symm
            · exact hq.1 h'
          · intro x hx
            rcases List.mem_cons.mp hx with h' | h'
            · subst h'; exact List.mem_cons_self _ _
            · exact List.mem_cons_of_mem _ (hq.2 x h')
        · have hq := ih p (List.mem_cons_of_mem _ h)
          exact ⟨hq.1, fun x hx => List.mem_cons_of_mem _ (hq.2 x hx)⟩

theorem rdropWhile_append_rtakeWhile (p : Char → Bool) (l : List Char) :
    l.rdropWhile p ++ l.rtakeWhile p = l := by
  simp [List.rdropWhile, List.rtakeWhile, ← List.reverse_append]

theorem trimChars_decomp (cs : List Char) :
    ∃ a b, cs = a ++ trimChars cs ++ b ∧
      (∀ c ∈ a, isTrimChar c = true) ∧ (∀ c ∈ b, isTrimChar c = true) := by
  refine ⟨cs.takeWhile isTrimChar, (cs.dropWhile isTrimChar).rtakeWhile isTrimChar, ?_,
    fun c hc => List.mem_takeWhile_imp hc, fun c hc => List.mem_rtakeWhile_imp hc⟩
  rw [List.append_assoc, trimChars, rdropWhile_append_rtakeWhile,
    List.takeWhile_append_dropWhile]

theorem trimChars_head (cs : List Char) (c : Char)
    (h : (trimChars cs).head? = some c) : isTrimChar c = false := by
  obtain ⟨t, ht⟩ := List.rdropWhile_prefix (p := isTrimChar) (l := cs.dropWhile isTrimChar)
  have hd := List.head?_dropWhile_not isTrimChar cs
  unfold trimChars at h
  cases hr : (cs.dropWhile isTrimChar).rdropWhile isTrimChar with
  | nil => rw [hr] at h; simp at h
  | cons x r =>
    rw [hr] at h ht
    simp only [List.head?_cons, Option.some.injEq] at h
    subst h
    rw [← ht] at hd
    simpa using hd

theorem trimChars_last (cs : List Char) (c : Char)
    (h : (trimChars cs).getLast? = some c) : isTrimChar c = false := by
  unfold trimChars at h
  have hne : (cs.dropWhile isTrimChar).rdropWhile isTrimChar ≠ [] := by
    intro hnil; rw [hnil] at h; simp at h
  have hl := List.rdropWhile_last_not (p := isTrimChar) (l := cs.dropWhile isTrimChar) hne
  rw [List.getLast?_eq_getLast _ hne] at h
  simp only [Option.some.injEq] at h
  rw [h] at hl
  simpa using hl

theorem trimChars_eq_nil (cs : List Char) (h : ∀ c ∈ cs, isTrimChar c = true) :
    trimChars cs = [] := by
  unfold trimChars
  rw [List.dropWhile_eq_nil_iff.mpr h]
  simp

theorem split_data (value : String) :
    (split value).map String.data = splitComma value.data := by
  simp [split, List.map_map, Function.comp_def]

theorem truthy_str (t : String) : (str t).truthy = true ↔ t ≠ "" := by
  simp [truthy]

theorem mem_parseTags (value t : String) :
    t ∈ parseTags value ↔ t ≠ "" ∧ ∃ p ∈ splitComma value.data, t = String.mk (trimChars p) := by
  simp only [parseTags, List.mem_filter, List.mem_map, truthy_str, split, trim]
  constructor
  · rintro ⟨⟨_, ⟨p, hp, rfl⟩, rfl⟩, hne⟩
    exact ⟨hne, p, hp, rfl⟩
  · rintro ⟨hne, p, hp, rfl⟩
    exact ⟨⟨_, ⟨p, hp, rfl⟩, rfl⟩, hne⟩

/-- C10: for every text of the tags field, `createDisaster` sends `parseTags` of the
text as the `tags` of the request body; the pieces produced by `split(",")` are
the comma-separated pieces of the text (joined by commas they give the text back,
and none contains a comma); `trim` strips exactly the surrounding white space of a
piece; the tags sent are the trimmed pieces with the empty ones dropped, in the
same order and with repetitions kept.  Hence no tag is empty, contains a comma, or
starts or ends with white space, and a text made of commas and white space only
gives no tag. -/
theorem parseTags_spec (value : String) :
    (∀ (title locationName description : String) (s : State),
      (createDisaster title locationName description value s).fetches = s.fetches ++
        [{ url := API_BASE_URL ++ "/disasters"
           init := [("method", str "POST"),
                    ("body", obj [("title", str title), ("location_name", str locationName),
                                  ("description", str description),
                                  ("tags", arr ((parseTags value).map str))]),
                    ("headers", obj [("Content-Type", str "application/json"),
                                     ("x-user-id", str s.currentUser)])] }]) ∧
    List.intercalate [','] ((split value).map String.data) = value.data ∧
    (∀ p ∈ split value, ',' ∉ p.data) ∧
    (∀ p : String, ∃ a b, p.data = a ++ (trim p).data ++ b ∧
      (∀ c ∈ a, isTrimChar c = true) ∧ (∀ c ∈ b, isTrimChar c = true) ∧
      (∀ c, (trim p).data.head? = some c → isTrimChar c = false) ∧
      (∀ c, (trim p).data.getLast? = some c → isTrimChar c = false)) ∧
    parseTags value = ((split value).map trim).filter (fun t => t != "") ∧
    (∀ t ∈ parseTags value, t ≠ "" ∧ ',' ∉ t.data ∧
      (∀ c, t.data.head? = some c → isTrimChar c = false) ∧
      (∀ c, t.data.getLast? = some c → isTrimChar c = false)) ∧
    ((∀ c ∈ value.data, c = ',' ∨ isTrimChar c = true) → parseTags value = []) := by
  refine ⟨?_, ?_, ?_, ?_, ?_, ?_, ?_⟩
  · intro title locationName description s
    simp [createDisaster, apiCall, apiRequest, JSVal.get, lookup, ownProps, tryCatch,
      FormData.toJS]
  · rw [split_data, splitComma_intercalate]
  · intro p hp
    have hp' : p.data ∈ (split value).map String.data := List.mem_map_of_mem _ hp
    rw [split_data] at hp'
    exact (splitComma_pieces value.data p.data hp').1
  · intro p
    obtain ⟨a, b, hab, ha, hb⟩ := trimChars_decomp p.data
    exact ⟨a, b, hab, ha, hb, fun c hc => trimChars_head p.data c hc,
      fun c hc => trimChars_last p.data c hc⟩
  · rfl
  · intro t ht
    obtain ⟨hne, p, hp, rfl⟩ := (mem_parseTags value t).mp ht
    obtain ⟨a, b, hab, -, -⟩ := trimChars_decomp p
    refine ⟨hne, ?_, fun c hc => trimChars_head p c hc, fun c hc => trimChars_last p c hc⟩
    intro hmem
    apply (splitComma_pieces value.data p hp).1
    rw [hab]
    exact List.mem_append_left _ (List.mem_append_right _ hmem)
  · intro hall
    apply List.eq_nil_iff_forall_not_mem.mpr
    intro t ht
    obtain ⟨hne, p, hp, rfl⟩ := (mem_parseTags value t).mp ht
    apply hne
    have hpiece := splitComma_pieces value.data p hp
    have htrim : trimChars p = [] := by
      apply trimChars_eq_nil
      intro c hc
      rcases hall c (hpiece.2 c hc) with h | h
      · subst h; exact absurd hc hpiece.1
      · exact h
    rw [htrim]

/-- C10 at a concrete input: a text of commas and spaces gives no tag. -/
theorem parseTags_spec_witness :
    (∀ c ∈ (" , ,, " : String).data, c = ',' ∨ isTrimChar c = true) ∧
    parseTags " , ,, " = [] :=
  ⟨by decide, (parseTags_spec " , ,, ").2.2.2.2.2.2 (by decide)⟩

/-! ### Socket payloads only select what is fetched again -/

theorem sameButConsole_iff (a b : State) :
    SameButConsole a b ↔
      a.currentUser = b.currentUser ∧ a.disasters = b.disasters ∧
      a.disastersList = b.disastersList ∧ a.disasterSelect = b.disasterSelect ∧
      a.socialMediaFeed = b.socialMediaFeed ∧ a.resourcesList = b.resourcesList ∧
      a.officialUpdates = b.officialUpdates ∧ a.lastUpdate = b.lastUpdate ∧
      a.formResets = b.formResets ∧ a.alerts = b.alerts ∧ a.calls = b.calls ∧
      a.fetches = b.fetches ∧ a.pending = b.pending := by
  obtain ⟨a1, a2, a3, a4, a5, a6, a7, a8, a9, a10, a11, a12, a13, a14⟩ := a
  obtain ⟨b1, b2, b3, b4, b5, b6, b7, b8, b9, b10, b11, b12, b13, b14⟩ := b
  simp [SameButConsole, State.eraseConsole]

theorem SameButConsole.refl (a : State) : SameButConsole a a := rfl

theorem SameButConsole.trans {a b c : State} (h1 : SameButConsole a b)
    (h2 : SameButConsole b c) : SameButConsole a c := Eq.trans h1 h2

theorem showError_same (m : String) {a b : State} (h : SameButConsole a b) :
    SameButConsole (showError m a) (showError m b) := by
  rw [sameButConsole_iff] at h ⊢
  obtain ⟨h1, h2, h3, h4, h5, h6, h7, h8, h9, h10, h11, h12, h13⟩ := h
  simp [showError, *]

theorem showSuccess_same (m : String) {a b : State} (h : SameButConsole a b) :
    SameButConsole (showSuccess m a) (showSuccess m b) := by
  rw [sameButConsole_iff] at h ⊢
  obtain ⟨h1, h2, h3, h4, h5, h6, h7, h8, h9, h10, h11, h12, h13⟩ := h
  simp [showSuccess, *]

theorem consoleError_same (l m m' : String) {a b : State} (h : SameButConsole a b) :
    SameButConsole (consoleError l m a) (consoleError l m' b) := by
  rw [sameButConsole_iff] at h ⊢
  obtain ⟨h1, h2, h3, h4, h5, h6, h7, h8, h9, h10, h11, h12, h13⟩ := h
  simp [consoleError, *]

theorem consoleLog_same (l : String) (d d' : JSVal) {a b : State} (h : SameButConsole a b) :
    SameButConsole (consoleLog l d a) (consoleLog l d' b) := by
  rw [sameButConsole_iff] at h ⊢
  obtain ⟨h1, h2, h3, h4, h5, h6, h7, h8, h9, h10, h11, h12, h13⟩ := h
  simp [consoleLog, *]

theorem updateLastUpdate_same {a b : State} (h : SameButConsole a b) :
    SameButConsole (updateLastUpdate a) (updateLastUpdate b) := by
  rw [sameButConsole_iff] at h ⊢
  obtain ⟨h1, h2, h3, h4, h5, h6, h7, h8, h9, h10, h11, h12, h13⟩ := h
  simp [updateLastUpdate, *]

theorem sameRun_mk {α : Type} (r : α) {a b : State} (h : SameButConsole a b) :
    SameRun (r, a) (r, b) := ⟨rfl, h⟩

theorem tryCatch_same {x y : Except String Unit × State} (h : SameRun x y)
    (handler : String → State → State)
    (hh : ∀ e (a b : State), SameButConsole a b → SameButConsole (handler e a) (handler e b)) :
    SameButConsole (tryCatch x handler) (tryCatch y handler) := by
  obtain ⟨r1, a⟩ := x
  obtain ⟨r2, b⟩ := y
  obtain ⟨hr, hs⟩ := h
  simp only at hr hs
  subst hr
  cases r1 with
  | error e => exact hh e a b hs
  | ok u => exact hs

theorem andThen_same {x y : Except String Unit × State} (h : SameRun x y)
    (next : State → Except String Unit × State)
    (hn : ∀ a b : State, SameButConsole a b → SameRun (next a) (next b)) :
    SameRun (andThen x next) (andThen y next) := by
  obtain ⟨r1, a⟩ := x
  obtain ⟨r2, b⟩ := y
  obtain ⟨hr, hs⟩ := h
  simp only at hr hs
  subst hr
  cases r1 with
  | error e => exact ⟨rfl, hs⟩
  | ok u => exact hn a b hs

theorem displayDisasters_same {a b : State} (h : SameButConsole a b) :
    SameRun (displayDisasters a) (displayDisasters b) := by
  rw [sameButConsole_iff] at h
  obtain ⟨h1, h2, h3, h4, h5, h6, h7, h8, h9, h10, h11, h12, h13⟩ := h
  unfold SameRun
  rw [sameButConsole_iff]
  cases hd : b.disasters <;> simp [displayDisasters, hd, *]

theorem updateDisasterSelect_same {a b : State} (h : SameButConsole a b) :
    SameRun (updateDisasterSelect a) (updateDisasterSelect b) := by
  rw [sameButConsole_iff] at h
  obtain ⟨h1, h2, h3, h4, h5, h6, h7, h8, h9, h10, h11, h12, h13⟩ := h
  unfold SameRun
  rw [sameButConsole_iff]
  cases hd : b.disasters <;> simp [updateDisasterSelect, hd, *]

theorem displaySocialMedia_same (posts : JSVal) {a b : State} (h : SameButConsole a b) :
    SameRun (displaySocialMedia posts a) (displaySocialMedia posts b) := by
  rw [sameButConsole_iff] at h
  obtain ⟨h1, h2, h3, h4, h5, h6, h7, h8, h9, h10, h11, h12, h13⟩ := h
  unfold SameRun
  rw [sameButConsole_iff]
  by_cases hc : (!posts.truthy || posts.lengthIsZero) = true
  · simp [displaySocialMedia, hc, *]
  · cases posts <;> simp [displaySocialMedia, hc, *]

theorem displayResources_same (resources : JSVal) {a b : State} (h : SameButConsole a b) :
    SameRun (displayResources resources a) (displayResources resources b) := by
  rw [sameButConsole_iff] at h
  obtain ⟨h1, h2, h3, h4, h5, h6, h7, h8, h9, h10, h11, h12, h13⟩ := h
  unfold SameRun
  rw [sameButConsole_iff]
  by_cases hc : (!resources.truthy || resources.lengthIsZero) = true
  · simp [displayResources, hc, *]
  · cases resources <;> simp [displayResources, hc, *]

theorem displayOfficialUpdates_same (updates : JSVal) {a b : State}
    (h : SameButConsole a b) :
    SameRun (displayOfficialUpdates updates a) (displayOfficialUpdates updates b) := by
  rw [sameButConsole_iff] at h
  obtain ⟨h1, h2, h3, h4, h5, h6, h7, h8, h9, h10, h11, h12, h13⟩ := h
  unfold SameRun
  rw [sameButConsole_iff]
  by_cases hc : (!updates.truthy || updates.lengthIsZero) = true
  · simp [displayOfficialUpdates, hc, *]
  · cases updates <;> simp [displayOfficialUpdates, hc, *]

theorem apiCallCatch_same (m : String) {a b : State} (h : SameButConsole a b) :
    SameButConsole (apiCallCatch m a) (apiCallCatch m b) :=
  showError_same m (consoleError_same _ m m h)

theorem apiCall_same (url : String) (options : JSVal) (k : Cont) {a b : State}
    (h : SameButConsole a b) :
    SameRun (apiCall url options k a) (apiCall url options k b) := by
  have hu : a.currentUser = b.currentUser := ((sameButConsole_iff a b).mp h).1
  unfold apiCall
  rw [hu]
  cases apiRequest b.currentUser url options with
  | error e => exact ⟨rfl, apiCallCatch_same e h⟩
  | ok r =>
    refine ⟨rfl, ?_⟩
    rw [sameButConsole_iff] at h ⊢
    obtain ⟨h1, h2, h3, h4, h5, h6, h7, h8, h9, h10, h11, h12, h13⟩ := h
    simp [*]

theorem apiCallSettle_same (o : Outcome) {a b : State} (h : SameButConsole a b) :
    SameRun (apiCallSettle o a) (apiCallSettle o b) := by
  cases o with
  | rejected m => exact ⟨rfl, apiCallCatch_same m h⟩
  | response status body =>
    by_cases hs : okStatus status = true
    · cases body with
      | error m => simpa [apiCallSettle, hs, SameRun] using apiCallCatch_same m h
      | ok v => simpa [apiCallSettle, hs, SameRun] using h
    · simpa [apiCallSettle, hs, SameRun] using apiCallCatch_same _ h

theorem with_disasters_same (v : JSVal) {a b : State} (h : SameButConsole a b) :
    SameButConsole { a with disasters := v } { b with disasters := v } := by
  rw [sameButConsole_iff] at h ⊢
  obtain ⟨h1, h2, h3, h4, h5, h6, h7, h8, h9, h10, h11, h12, h13⟩ := h
  simp [*]

theorem with_pending_same (rest : List (Nat × Cont)) {a b : State} (h : SameButConsole a b) :
    SameButConsole { a with pending := rest } { b with pending := rest } := by
  rw [sameButConsole_iff] at h ⊢
  obtain ⟨h1, h2, h3, h4, h5, h6, h7, h8, h9, h10, h11, h12, h13⟩ := h
  simp [*]

theorem with_currentUser_same (u : String) {a b : State} (h : SameButConsole a b) :
    SameButConsole { a with currentUser := u } { b with currentUser := u } := by
  rw [sameButConsole_iff] at h ⊢
  obtain ⟨h1, h2, h3, h4, h5, h6, h7, h8, h9, h10, h11, h12, h13⟩ := h
  simp [*]

theorem loadDisasters_same {a b : State} (h : SameButConsole a b) :
    SameButConsole (loadDisasters a) (loadDisasters b) :=
  tryCatch_same (apiCall_same _ _ _ h) _ (fun e _ _ h' => consoleError_same _ e e h')

theorem loadDisastersResume_same (r : Except String JSVal) {a b : State}
    (h : SameButConsole a b) :
    SameRun (loadDisastersResume r a) (loadDisastersResume r b) := by
  cases r with
  | error e =>
    refine ⟨rfl, ?_⟩
    simp only [loadDisastersResume]
    exact tryCatch_same (sameRun_mk (.error e) h) _
      (fun e _ _ h' => consoleError_same _ e e h')
  | ok v =>
    refine ⟨rfl, ?_⟩
    simp only [loadDisastersResume]
    exact tryCatch_same
      (andThen_same (displayDisasters_same (with_disasters_same v h)) _
        (fun _ _ h' => updateDisasterSelect_same h'))
      _ (fun e _ _ h' => consoleError_same _ e e h')

theorem createDisaster_same (title locationName description tags : String) {a b : State}
    (h : SameButConsole a b) :
    SameButConsole (createDisaster title locationName description tags a)
      (createDisaster title locationName description tags b) :=
  tryCatch_same (apiCall_same _ _ _ h) _ (fun _ _ _ h' => showError_same _ h')

theorem createDisasterAfterPost_same (formData : FormData) (disaster : JSVal) {a b : State}
    (h : SameButConsole a b) :
    SameRun (createDisasterAfterPost formData disaster a)
      (createDisasterAfterPost formData disaster b) := by
  have h' : SameButConsole
      { showSuccess "Disaster created successfully!" a with
        formResets := (showSuccess "Disaster created successfully!" a).formResets + 1 }
      { showSuccess "Disaster created successfully!" b with
        formResets := (showSuccess "Disaster created successfully!" b).formResets + 1 } := by
    have hs := showSuccess_same "Disaster created successfully!" h
    rw [sameButConsole_iff] at hs ⊢
    obtain ⟨h1, h2, h3, h4, h5, h6, h7, h8, h9, h10, h11, h12, h13⟩ := hs
    simp [*]
  unfold createDisasterAfterPost
  simp only
  split
  · cases disaster.get "id" with
    | error e => exact ⟨rfl, h'⟩
    | ok id => exact apiCall_same _ _ _ h'
  · exact ⟨rfl, h'⟩

theorem createDisasterResume_same (formData : FormData) (r : Except String JSVal)
    {a b : State} (h : SameButConsole a b) :
    SameButConsole (createDisasterResume formData r a) (createDisasterResume formData r b) := by
  cases r with
  | error e => exact tryCatch_same (sameRun_mk (.error e) h) _ (fun _ _ _ h' => showError_same _ h')
  | ok disaster =>
    exact tryCatch_same (createDisasterAfterPost_same formData disaster h) _
      (fun _ _ _ h' => showError_same _ h')

theorem createDisasterGeocodeResume_same (r : Except String JSVal) {a b : State}
    (h : SameButConsole a b) :
    SameButConsole (createDisasterGeocodeResume r a) (createDisasterGeocodeResume r b) := by
  cases r with
  | error e => exact tryCatch_same (sameRun_mk (.error e) h) _ (fun _ _ _ h' => showError_same _ h')
  | ok v => exact h

theorem loadSocialMediaForDisaster_same (disasterId : JSVal) {a b : State}
    (h : SameButConsole a b) :
    SameButConsole (loadSocialMediaForDisaster disasterId a)
      (loadSocialMediaForDisaster disasterId b) := by
  unfold loadSocialMediaForDisaster
  cases toStr disasterId with
  | error e => exact tryCatch_same (sameRun_mk (.error e) h) _ (fun e _ _ h' => consoleError_same _ e e h')
  | ok id =>
    exact tryCatch_same (apiCall_same _ _ _ h) _ (fun e _ _ h' => consoleError_same _ e e h')

theorem loadSocialMediaResume_same (r : Except String JSVal) {a b : State}
    (h : SameButConsole a b) :
    SameButConsole (loadSocialMediaResume r a) (loadSocialMediaResume r b) := by
  cases r with
  | error e => exact tryCatch_same (sameRun_mk (.error e) h) _ (fun e _ _ h' => consoleError_same _ e e h')
  | ok v =>
    exact tryCatch_same (displaySocialMedia_same v h) _
      (fun e _ _ h' => consoleError_same _ e e h')

theorem loadResourcesForDisaster_same (disasterId : JSVal) {a b : State}
    (h : SameButConsole a b) :
    SameButConsole (loadResourcesForDisaster disasterId a)
      (loadResourcesForDisaster disasterId b) := by
  unfold loadResourcesForDisaster
  cases toStr disasterId with
  | error e => exact tryCatch_same (sameRun_mk (.error e) h) _ (fun e _ _ h' => consoleError_same _ e e h')
  | ok id =>
    exact tryCatch_same (apiCall_same _ _ _ h) _ (fun e _ _ h' => consoleError_same _ e e h')

theorem loadResourcesResume_same (r : Except String JSVal) {a b : State}
    (h : SameButConsole a b) :
    SameButConsole (loadResourcesResume r a) (loadResourcesResume r b) := by
  cases r with
  | error e => exact tryCatch_same (sameRun_mk (.error e) h) _ (fun e _ _ h' => consoleError_same _ e e h')
  | ok v =>
    exact tryCatch_same (displayResources_same v h) _
      (fun e _ _ h' => consoleError_same _ e e h')

theorem loadResources_same (pos : String → Bool) {a b : State} (h : SameButConsole a b) :
    SameButConsole (loadResources pos a) (loadResources pos b) := by
  have hd : a.disasters = b.disasters := ((sameButConsole_iff a b).mp h).2.1
  unfold loadResources
  rw [hd]
  split
  · exact loadResourcesForDisaster_same _ h
  · exact h

theorem loadOfficialUpdates_same (disasterId : JSVal) {a b : State}
    (h : SameButConsole a b) :
    SameButConsole (loadOfficialUpdates disasterId a) (loadOfficialUpdates disasterId b) := by
  unfold loadOfficialUpdates
  cases toStr disasterId with
  | error e => exact tryCatch_same (sameRun_mk (.error e) h) _ (fun e _ _ h' => consoleError_same _ e e h')
  | ok id =>
    exact tryCatch_same (apiCall_same _ _ _ h) _ (fun e _ _ h' => consoleError_same _ e e h')

theorem loadOfficialUpdatesResume_same (r : Except String JSVal) {a b : State}
    (h : SameButConsole a b) :
    SameButConsole (loadOfficialUpdatesResume r a) (loadOfficialUpdatesResume r b) := by
  cases r with
  | error e => exact tryCatch_same (sameRun_mk (.error e) h) _ (fun e _ _ h' => consoleError_same _ e e h')
  | ok v =>
    exact tryCatch_same (displayOfficialUpdates_same v h) _
      (fun e _ _ h' => consoleError_same _ e e h')

theorem onMessage_same (pos : String → Bool) (type : PushType) (p q : JSVal)
    (hpq : payloadDisasterId p = payloadDisasterId q) {a b : State}
    (h : SameButConsole a b) :
    SameButConsole (onMessage pos type p a) (onMessage pos type q b) := by
  cases type with
  | disaster_updated =>
    exact updateLastUpdate_same (loadDisasters_same (consoleLog_same _ p q h))
  | resources_updated =>
    exact updateLastUpdate_same (loadResources_same pos (consoleLog_same _ p q h))
  | social_media_updated =>
    have hl := consoleLog_same "Social media updated:" p q h
    simp only [onMessage]
    unfold payloadDisasterId at hpq
    cases hp : p.get "disaster_id" with
    | error e =>
      cases hq : q.get "disaster_id" with
      | error e' => exact hl
      | ok id' => rw [hp, hq] at hpq; simp at hpq
    | ok id =>
      cases hq : q.get "disaster_id" with
      | error e' => rw [hp, hq] at hpq; simp at hpq
      | ok id' =>
        rw [hp, hq] at hpq
        simp only [Option.some.injEq] at hpq
        subst hpq
        simp only
        apply updateLastUpdate_same
        split
        · exact loadSocialMediaForDisaster_same _ hl
        · exact hl

theorem resume_same (k : Cont) (o : Outcome) {a b : State} (h : SameButConsole a b) :
    SameButConsole (resume k o a) (resume k o b) := by
  obtain ⟨hr, hs⟩ := apiCallSettle_same o h
  unfold resume
  simp only
  rw [hr]
  cases k with
  | loadDisasters => exact (loadDisastersResume_same _ hs).2
  | loadSocialMediaForDisaster => exact loadSocialMediaResume_same _ hs
  | loadResourcesForDisaster => exact loadResourcesResume_same _ hs
  | loadOfficialUpdates => exact loadOfficialUpdatesResume_same _ hs
  | createDisaster formData => exact createDisasterResume_same _ _ hs
  | createDisasterGeocode => exact createDisasterGeocodeResume_same _ hs

theorem step_same (pos : String → Bool) (e : Event) {a b : State} (h : SameButConsole a b) :
    SameButConsole (step pos a e) (step pos b e) := by
  cases e with
  | ready => exact loadDisasters_same h
  | selectUser value => exact consoleLog_same _ _ _ (with_currentUser_same value h)
  | submitDisaster t l d tags => exact createDisaster_same t l d tags h
  | clickLoadSocialMedia id => exact loadSocialMediaForDisaster_same _ h
  | clickLoadResources id => exact loadResourcesForDisaster_same _ h
  | clickOfficialUpdates id => exact loadOfficialUpdates_same _ h
  | message type data => exact onMessage_same pos type data data rfl h
  | complete id o =>
    have hp : a.pending = b.pending := ((sameButConsole_iff a b).mp h).2.2.2.2.2.2.2.2.2.2.2.2
    simp only [step]
    rw [hp]
    cases takePending id b.pending with
    | none => exact h
    | some kr =>
      obtain ⟨k, rest⟩ := kr
      exact resume_same k o (with_pending_same rest h)

theorem run_same (pos : String → Bool) (es : List Event) :
    ∀ {a b : State}, SameButConsole a b → SameButConsole (run pos a es) (run pos b es) := by
  induction es with
  | nil => intro a b h; exact h
  | cons e es ih =>
    intro a b h
    simp only [run, List.foldl_cons]
    exact ih (step_same pos e h)

/-- C6: for each of the three socket messages and any two payloads from which
`data.disaster_id` reads the same, handling the message on the same page and then
running the same tasks (in particular completing the same requests with the same
responses) leads to pages that differ at most in their console output: the same
requests made and awaited, the same cached `disasters`, the same content in every
container, the same alerts. -/
theorem message_payload_noninterference (pos : String → Bool) (s : State)
    (type : PushType) (p q : JSVal) (later : List Event)
    (hpq : payloadDisasterId p = payloadDisasterId q) :
    (run pos (step pos s (.message type p)) later).eraseConsole
      = (run pos (step pos s (.message type q)) later).eraseConsole :=
  run_same pos later (onMessage_same pos type p q hpq (SameButConsole.refl s))

/-- C6 at a concrete input: two `social_media_updated` payloads naming disaster
`d1`, one of them carrying forged posts, followed by the response to the request. -/
theorem message_payload_noninterference_witness :
    (run (fun _ => false)
        (step (fun _ => false) State.initial
          (.message .social_media_updated (obj [("disaster_id", str "d1")])))
        [.complete 0 (.response 200 (.ok (arr [])))]).eraseConsole
      = (run (fun _ => false)
        (step (fun _ => false) State.initial
          (.message .social_media_updated
            (obj [("disaster_id", str "d1"),
                  ("posts", arr [obj [("user", str "x"), ("post", str "forged")]])])))
        [.complete 0 (.response 200 (.ok (arr [])))]).eraseConsole :=
  message_payload_noninterference (fun _ => false) State.initial .social_media_updated
    (obj [("disaster_id", str "d1")])
    (obj [("disaster_id", str "d1"),
          ("posts", arr [obj [("user", str "x"), ("post", str "forged")]])])
    [.complete 0 (.response 200 (.ok (arr [])))] rfl

/-! ### Numbering of the awaited requests -/

theorem pendingOk_of_eq {a b : State} (hp : a.pending = b.pending)
    (hf : a.fetches = b.fetches) (h : PendingOk b) : PendingOk a := by
  unfold PendingOk at h ⊢
  rw [hp, hf]
  exact h

theorem showError_pendingOk (m : String) {a : State} (h : PendingOk a) :
    PendingOk (showError m a) := pendingOk_of_eq rfl rfl h

theorem showSuccess_pendingOk (m : String) {a : State} (h : PendingOk a) :
    PendingOk (showSuccess m a) := pendingOk_of_eq rfl rfl h

theorem consoleError_pendingOk (l m : String) {a : State} (h : PendingOk a) :
    PendingOk (consoleError l m a) := pendingOk_of_eq rfl rfl h

theorem consoleLog_pendingOk (l : String) (d : JSVal) {a : State} (h : PendingOk a) :
    PendingOk (consoleLog l d a) := pendingOk_of_eq rfl rfl h

theorem updateLastUpdate_pendingOk {a : State} (h : PendingOk a) :
    PendingOk (updateLastUpdate a) := pendingOk_of_eq rfl rfl h

theorem tryCatch_pendingOk {x : Except String Unit × State} (h : PendingOk x.2)
    (handler : String → State → State)
    (hh : ∀ e (a : State), PendingOk a → PendingOk (handler e a)) :
    PendingOk (tryCatch x handler) := by
  obtain ⟨r, a⟩ := x
  cases r with
  | error e => exact hh e a h
  | ok u => exact h

theorem andThen_pendingOk {x : Except String Unit × State} (h : PendingOk x.2)
    (next : State → Except String Unit × State)
    (hn : ∀ a : State, PendingOk a → PendingOk (next a).2) :
    PendingOk (andThen x next).2 := by
  obtain ⟨r, a⟩ := x
  cases r with
  | error e => exact h
  | ok u => exact hn a h

theorem displayDisasters_pendingOk {a : State} (h : PendingOk a) :
    PendingOk (displayDisasters a).2 :=
  pendingOk_of_eq (displayDisasters_frame a).2.1 (displayDisasters_frame a).2.2.2 h

theorem updateDisasterSelect_pendingOk {a : State} (h : PendingOk a) :
    PendingOk (updateDisasterSelect a).2 :=
  pendingOk_of_eq (updateDisasterSelect_frame a).2.1 (updateDisasterSelect_frame a).2.2.2 h

theorem displaySocialMedia_pendingOk (posts : JSVal) {a : State} (h : PendingOk a) :
    PendingOk (displaySocialMedia posts a).2 := by
  refine pendingOk_of_eq ?_ ?_ h <;>
    by_cases hc : (!posts.truthy || posts.lengthIsZero) = true <;>
    cases posts <;> simp [displaySocialMedia, hc]

theorem displayResources_pendingOk (resources : JSVal) {a : State} (h : PendingOk a) :
    PendingOk (displayResources resources a).2 := by
  refine pendingOk_of_eq ?_ ?_ h <;>
    by_cases hc : (!resources.truthy || resources.lengthIsZero) = true <;>
    cases resources <;> simp [displayResources, hc]

theorem displayOfficialUpdates_pendingOk (updates : JSVal) {a : State} (h : PendingOk a) :
    PendingOk (displayOfficialUpdates updates a).2 := by
  refine pendingOk_of_eq ?_ ?_ h <;>
    by_cases hc : (!updates.truthy || updates.lengthIsZero) = true <;>
    cases updates <;> simp [displayOfficialUpdates, hc]

theorem apiCall_pendingOk (url : String) (options : JSVal) (k : Cont) {a : State}
    (h : PendingOk a) : PendingOk (apiCall url options k a).2 := by
  unfold apiCall
  cases apiRequest a.currentUser url options with
  | error e => exact showError_pendingOk _ (consoleError_pendingOk _ _ h)
  | ok r =>
    obtain ⟨hnd, hlt⟩ := h
    refine ⟨?_, ?_⟩
    · simp only [List.map_append, List.map_cons, List.map_nil]
      rw [List.nodup_append]
      refine ⟨hnd, by simp, ?_⟩
      intro i hi hi'
      simp only [List.mem_singleton] at hi'
      obtain ⟨p, hp, rfl⟩ := List.mem_map.mp hi
      exact absurd hi' (Nat.ne_of_lt (hlt p hp))
    · intro p hp
      simp only [List.length_append, List.length_singleton]
      rcases List.mem_append.mp hp with hp | hp
      · exact Nat.lt_succ_of_lt (hlt p hp)
      · simp only [List.mem_singleton] at hp
        subst hp
        exact Nat.lt_succ_self _

theorem apiCallSettle_pendingOk (o : Outcome) {a : State} (h : PendingOk a) :
    PendingOk (apiCallSettle o a).2 := by
  have hc : ∀ m, PendingOk (apiCallCatch m a) :=
    fun m => showError_pendingOk _ (consoleError_pendingOk _ _ h)
  cases o with
  | rejected m => exact hc m
  | response status body =>
    by_cases hs : okStatus status = true
    · cases body with
      | error m => simpa [apiCallSettle, hs] using hc m
      | ok v => simpa [apiCallSettle, hs] using h
    · simpa [apiCallSettle, hs] using hc _

theorem loadDisasters_pendingOk {a : State} (h : PendingOk a) : PendingOk (loadDisasters a) :=
  tryCatch_pendingOk (apiCall_pendingOk _ _ _ h) _ (fun _ _ h' => consoleError_pendingOk _ _ h')

theorem loadSocialMediaForDisaster_pendingOk (disasterId : JSVal) {a : State}
    (h : PendingOk a) : PendingOk (loadSocialMediaForDisaster disasterId a) := by
  unfold loadSocialMediaForDisaster
  cases toStr disasterId with
  | error e => exact consoleError_pendingOk _ _ h
  | ok id =>
    exact tryCatch_pendingOk (apiCall_pendingOk _ _ _ h) _
      (fun _ _ h' => consoleError_pendingOk _ _ h')

theorem loadResourcesForDisaster_pendingOk (disasterId : JSVal) {a : State}
    (h : PendingOk a) : PendingOk (loadResourcesForDisaster disasterId a) := by
  unfold loadResourcesForDisaster
  cases toStr disasterId with
  | error e => exact consoleError_pendingOk _ _ h
  | ok id =>
    exact tryCatch_pendingOk (apiCall_pendingOk _ _ _ h) _
      (fun _ _ h' => consoleError_pendingOk _ _ h')

theorem loadOfficialUpdates_pendingOk (disasterId : JSVal) {a : State}
    (h : PendingOk a) : PendingOk (loadOfficialUpdates disasterId a) := by
  unfold loadOfficialUpdates
  cases toStr disasterId with
  | error e => exact consoleError_pendingOk _ _ h
  | ok id =>
    exact tryCatch_pendingOk (apiCall_pendingOk _ _ _ h) _
      (fun _ _ h' => consoleError_pendingOk _ _ h')

theorem loadResources_pendingOk (pos : String → Bool) {a : State} (h : PendingOk a) :
    PendingOk (loadResources pos a) := by
  unfold loadResources
  split
  · exact loadResourcesForDisaster_pendingOk _ h
  · exact h

theorem createDisaster_pendingOk (title locationName description tags : String) {a : State}
    (h : PendingOk a) : PendingOk (createDisaster title locationName description tags a) :=
  tryCatch_pendingOk (apiCall_pendingOk _ _ _ h) _ (fun _ _ h' => showError_pendingOk _ h')

theorem createDisasterAfterPost_pendingOk (formData : FormData) (disaster : JSVal)
    {a : State} (h : PendingOk a) :
    PendingOk (createDisasterAfterPost formData disaster a).2 := by
  have h' : PendingOk
      { showSuccess "Disaster created successfully!" a with
        formResets := (showSuccess "Disaster created successfully!" a).formResets + 1 } :=
    pendingOk_of_eq rfl rfl h
  unfold createDisasterAfterPost
  simp only
  split
  · cases disaster.get "id" with
    | error e => exact h'
    | ok id => exact apiCall_pendingOk _ _ _ h'
  · exact h'

theorem resume_pendingOk (k : Cont) (o : Outcome) {a : State} (h : PendingOk a) :
    PendingOk (resume k o a) := by
  have hs := apiCallSettle_pendingOk o h
  unfold resume
  simp only
  generalize apiCallSettle o a = x at hs
  obtain ⟨r, t⟩ := x
  simp only at hs ⊢
  cases k with
  | loadDisasters =>
    cases r with
    | error e => exact consoleError_pendingOk _ _ hs
    | ok v =>
      have hv : PendingOk { t with disasters := v } := pendingOk_of_eq rfl rfl hs
      show PendingOk (tryCatch
        (andThen (displayDisasters { t with disasters := v }) updateDisasterSelect)
        (consoleError "Failed to load disasters:"))
      exact tryCatch_pendingOk
        (andThen_pendingOk (displayDisasters_pendingOk hv) _
          (fun _ h' => updateDisasterSelect_pendingOk h'))
        _ (fun _ _ h' => consoleError_pendingOk _ _ h')
  | loadSocialMediaForDisaster =>
    cases r with
    | error e => exact consoleError_pendingOk _ _ hs
    | ok v =>
      exact tryCatch_pendingOk (displaySocialMedia_pendingOk v hs) _
        (fun _ _ h' => consoleError_pendingOk _ _ h')
  | loadResourcesForDisaster =>
    cases r with
    | error e => exact consoleError_pendingOk _ _ hs
    | ok v =>
      exact tryCatch_pendingOk (displayResources_pendingOk v hs) _
        (fun _ _ h' => consoleError_pendingOk _ _ h')
  | loadOfficialUpdates =>
    cases r with
    | error e => exact consoleError_pendingOk _ _ hs
    | ok v =>
      exact tryCatch_pendingOk (displayOfficialUpdates_pendingOk v hs) _
        (fun _ _ h' => consoleError_pendingOk _ _ h')
  | createDisaster formData =>
    cases r with
    | error e => exact showError_pendingOk _ hs
    | ok v =>
      exact tryCatch_pendingOk (createDisasterAfterPost_pendingOk formData v hs) _
        (fun _ _ h' => showError_pendingOk _ h')
  | createDisasterGeocode =>
    cases r with
    | error e => exact showError_pendingOk _ hs
    | ok v => exact hs

theorem takePending_sublist (id : Nat) :
    ∀ (l : List (Nat × Cont)) (k : Cont) (rest : List (Nat × Cont)),
      takePending id l = some (k, rest) → rest.Sublist l := by
  intro l
  induction l with
  | nil => intro k rest h; simp [takePending] at h
  | cons q l ih =>
    obtain ⟨i, k'⟩ := q
    intro k rest h
    simp only [takePending] at h
    split at h
    · simp only [Option.some.injEq, Prod.mk.injEq] at h
      obtain ⟨-, rfl⟩ := h
      exact List.sublist_cons_self _ _
    · cases ht : takePending id l with
      | none => rw [ht] at h; simp at h
      | some kr =>
        obtain ⟨k2, rest2⟩ := kr
        rw [ht] at h
        simp only [Option.some.injEq, Prod.mk.injEq] at h
        obtain ⟨-, rfl⟩ := h
        exact (ih k2 rest2 ht).cons₂ _

theorem step_pendingOk (pos : String → Bool) (e : Event) {a : State} (h : PendingOk a) :
    PendingOk (step pos a e) := by
  cases e with
  | ready => exact loadDisasters_pendingOk h
  | selectUser value => exact pendingOk_of_eq rfl rfl h
  | submitDisaster t l d tags => exact createDisaster_pendingOk t l d tags h
  | clickLoadSocialMedia id => exact loadSocialMediaForDisaster_pendingOk _ h
  | clickLoadResources id => exact loadResourcesForDisaster_pendingOk _ h
  | clickOfficialUpdates id => exact loadOfficialUpdates_pendingOk _ h
  | message type data =>
    cases type with
    | disaster_updated =>
      exact updateLastUpdate_pendingOk (loadDisasters_pendingOk (consoleLog_pendingOk _ _ h))
    | resources_updated =>
      exact updateLastUpdate_pendingOk
        (loadResources_pendingOk pos (consoleLog_pendingOk _ _ h))
    | social_media_updated =>
      have hl := consoleLog_pendingOk "Social media updated:" data h
      simp only [step, onMessage]
      cases data.get "disaster_id" with
      | error e => exact hl
      | ok id =>
        simp only
        apply updateLastUpdate_pendingOk
        split
        · exact loadSocialMediaForDisaster_pendingOk _ hl
        · exact hl
  | complete id o =>
    simp only [step]
    cases ht : takePending id a.pending with
    | none => exact h
    | some kr =>
      obtain ⟨k, rest⟩ := kr
      apply resume_pendingOk
      have hsub := takePending_sublist id a.pending k rest ht
      exact ⟨(hsub.map Prod.fst).nodup h.1, fun p hp => h.2 p (hsub.subset hp)⟩

/-- Running tasks keeps the awaited requests distinctly numbered; with
`initial_pendingOk` this holds in every page reached from the initial one. -/
theorem run_pendingOk (pos : String → Bool) (es : List Event) :
    ∀ {a : State}, PendingOk a → PendingOk (run pos a es) := by
  induction es with
  | nil => intro a h; exact h
  | cons e es ih =>
    intro a h
    simp only [run, List.foldl_cons]
    exact ih (step_pendingOk pos e h)

theorem initial_pendingOk : PendingOk State.initial := by
  simp [PendingOk, State.initial]

/-! ### The three views that take their collection as an argument -/

theorem sibling_views_placeholder (v : JSVal) (h : v = undefined ∨ v = null ∨ v = arr [])
    (s : State) :
    ((displaySocialMedia v s).1 = .ok () ∧
      (displaySocialMedia v s).2.socialMediaFeed
        = [.markup "<h3>Recent Social Media Posts</h3>",
           .markup "<p>No social media posts found</p>"]) ∧
    ((displayResources v s).1 = .ok () ∧
      (displayResources v s).2.resourcesList = [.markup "<p>No resources found nearby</p>"]) ∧
    ((displayOfficialUpdates v s).1 = .ok () ∧
      (displayOfficialUpdates v s).2.officialUpdates
        = [.markup "<p>No official updates available</p>"]) := by
  rcases h with rfl | rfl | rfl <;>
    simp [displaySocialMedia, displayResources, displayOfficialUpdates, truthy, lengthIsZero]

theorem displaySocialMedia_items (f : JSVal → List Piece) (x : JSVal) (xs : List JSVal)
    (h : ∀ y ∈ x :: xs, renderPost y = .ok (f y)) (s : State) :
    (displaySocialMedia (arr (x :: xs)) s).1 = .ok () ∧
    (displaySocialMedia (arr (x :: xs)) s).2.socialMediaFeed
      = .markup "<h3>Recent Social Media Posts</h3>"
          :: (x :: xs).map (fun y => Node.item "social-post" (f y)) := by
  have hrun := forEachAppend_map renderPost "social-post" f (x :: xs)
    [.markup "<h3>Recent Social Media Posts</h3>"] h
  simp [displaySocialMedia, truthy, lengthIsZero, hrun]

theorem displayResources_items (f : JSVal → List Piece) (x : JSVal) (xs : List JSVal)
    (h : ∀ y ∈ x :: xs, renderResource y = .ok (f y)) (s : State) :
    (displayResources (arr (x :: xs)) s).1 = .ok () ∧
    (displayResources (arr (x :: xs)) s).2.resourcesList
      = (x :: xs).map (fun y => Node.item "resource-item" (f y)) := by
  have hrun := forEachAppend_map renderResource "resource-item" f (x :: xs) [] h
  simp [displayResources, truthy, lengthIsZero, hrun]

theorem displayOfficialUpdates_items (f : JSVal → List Piece) (x : JSVal) (xs : List JSVal)
    (h : ∀ y ∈ x :: xs, renderUpdate y = .ok (f y)) (s : State) :
    (displayOfficialUpdates (arr (x :: xs)) s).1 = .ok () ∧
    (displayOfficialUpdates (arr (x :: xs)) s).2.officialUpdates
      = (x :: xs).map (fun y => Node.item "update-item" (f y)) := by
  have hrun := forEachAppend_map renderUpdate "update-item" f (x :: xs) [] h
  simp [displayOfficialUpdates, truthy, lengthIsZero, hrun]

theorem displayDisasters_empty (s : State) (h : s.disasters = arr []) :
    (displayDisasters s).1 = .ok () ∧ (displayDisasters s).2.disastersList = [] := by
  simp [displayDisasters, h, forEachAppend]

theorem displayDisasters_not_loaded (s : State)
    (h : s.disasters = undefined ∨ s.disasters = null) :
    ∃ e, (displayDisasters s).1 = .error e := by
  rcases h with h | h <;> simp [displayDisasters, h]


/-! ### The delete button in the markup of a disaster -/

theorem markupChars_append (fmt : JSVal → String) (a b : List Piece) :
    markupChars fmt (a ++ b) = markupChars fmt a ++ markupChars fmt b := by
  induction a with
  | nil => rfl
  | cons p a ih => simp [markupChars, ih]

theorem markupChars_within (fmt : JSVal → String) (a sub b : List Piece) :
    markupChars fmt sub <:+: markupChars fmt (a ++ sub ++ b) :=
  ⟨markupChars fmt a, markupChars fmt b, by simp [markupChars_append]⟩

theorem mismatchWithin_self (q t : List Char) : mismatchWithin q (q ++ t) = false := by
  induction q with
  | nil => cases t <;> rfl
  | cons c q ih => simp [mismatchWithin, ih]

theorem mismatchWithin_append (q : List Char) :
    ∀ r y : List Char, mismatchWithin q r = true → mismatchWithin q (r ++ y) = true := by
  induction q with
  | nil => intro r y h; cases r <;> simp [mismatchWithin] at h
  | cons c q ih =>
    intro r y h
    cases r with
    | nil => simp [mismatchWithin] at h
    | cons d r =>
      simp only [mismatchWithin, List.cons_append] at h ⊢
      by_cases hcd : c = d
      · simp only [hcd, if_true] at h ⊢
        exact ih r y h
      · simp [hcd]

theorem safeFor_append (q : List Char) :
    ∀ x y : List Char, safeFor q x = true → safeFor q y = true → safeFor q (x ++ y) = true := by
  intro x
  induction x with
  | nil => intro y _ hy; exact hy
  | cons c x ih =>
    intro y hx hy
    simp only [safeFor, Bool.and_eq_true, Bool.or_eq_true, List.cons_append] at hx ⊢
    refine ⟨?_, ih y hx.2 hy⟩
    rcases hx.1 with h | h
    · exact Or.inl h
    · exact Or.inr (mismatchWithin_append q x y h)

theorem safeFor_of_no_lt (q : List Char) (l : List Char) (h : ∀ c ∈ l, c ≠ '<') :
    safeFor q l = true := by
  induction l with
  | nil => rfl
  | cons c l ih =>
    simp only [safeFor, Bool.and_eq_true, Bool.or_eq_true]
    refine ⟨Or.inl ?_, ih (fun x hx => h x (List.mem_cons_of_mem _ hx))⟩
    simpa using h c (List.mem_cons_self _ _)

theorem safeFor_of_plain (q : List Char) (s : String) (h : plainText s = true) :
    safeFor q s.data = true := by
  apply safeFor_of_no_lt
  intro c hc
  simp only [plainText, List.all_eq_true] at h
  simpa using h c hc

theorem safeFor_of_plainAttribute (q : List Char) (s : String)
    (h : plainAttribute s = true) : safeFor q s.data = true := by
  apply safeFor_of_no_lt
  intro c hc
  simp only [plainAttribute, List.all_eq_true, Bool.and_eq_true] at h
  simpa using (h c hc).1.1

theorem safeFor_not_within (q : List Char) :
    ∀ (s x t : List Char), safeFor q x = true → s ++ ('<' :: q) ++ t ≠ x := by
  intro s
  induction s with
  | nil =>
    intro x t hx heq
    subst heq
    simp only [List.nil_append, List.cons_append, safeFor, Bool.and_eq_true,
      Bool.or_eq_true] at hx
    rcases hx.1 with h | h
    · simp at h
    · have h' : mismatchWithin q (q ++ t) = true := h
      rw [mismatchWithin_self] at h'
      exact Bool.noConfusion h'
  | cons c s ih =>
    intro x t hx heq
    subst heq
    simp only [List.cons_append, safeFor, Bool.and_eq_true] at hx
    exact ih _ t hx.2 rfl

theorem tagSpans_record (tags : List String) :
    ∃ t, tagSpans (tags.map str) = .ok t ∧
      (tags.all plainText = true → safeFor deleteStart t.data = true) := by
  induction tags with
  | nil => exact ⟨"", rfl, fun _ => rfl⟩
  | cons tag tags ih =>
    obtain ⟨t, ht, hsafe⟩ := ih
    refine ⟨"<span class=\"tag " ++ (if (str tag).strictEqStr "urgent" then "urgent" else "")
        ++ "\">" ++ tag ++ "</span>" ++ t,
      by simp only [List.map_cons, tagSpans, tagSpan, toStr, ht], ?_⟩
    intro hall
    simp only [List.all_cons, Bool.and_eq_true] at hall
    have htag := safeFor_of_plain deleteStart tag hall.1
    have hrest := hsafe hall.2
    simp only [String.data_append]
    repeat' apply safeFor_append
    all_goals first
      | assumption
      | decide
      | (split <;> decide)

theorem renderDisaster_record (currentUser : String) (d : Disaster) (tags : String)
    (ht : tagSpans (d.tags.map str) = .ok tags) :
    renderDisaster currentUser d.toJS = .ok
      (disasterTemplate d.title
        (if d.location_name = "" then "Unknown" else d.location_name)
        d.owner_id (str d.created_at) d.description tags d.id
        (if d.owner_id = currentUser ∨ currentUser = "netrunnerX" then deleteButton d.id
         else "")) := by
  have hs : ((str d.owner_id).strictEqStr currentUser = true) = (d.owner_id = currentUser) := by
    simp [strictEqStr]
  simp only [renderDisaster, Disaster.toJS, JSVal.get, lookup, truthy, toStr,
    orElseStr, dateArg, bind, Except.bind, pure, Except.pure]
  by_cases h : d.location_name = "" <;> simp [h, ht, hs]

theorem disasterTemplate_safe (fmt : JSVal → String)
    (title location owner : String) (created : JSVal) (description tags id : String)
    (h1 : safeFor deleteStart title.data = true)
    (h2 : safeFor deleteStart location.data = true)
    (h3 : safeFor deleteStart owner.data = true)
    (h4 : safeFor deleteStart (fmt created).data = true)
    (h5 : safeFor deleteStart description.data = true)
    (h6 : safeFor deleteStart tags.data = true)
    (h7 : safeFor deleteStart id.data = true) :
    safeFor deleteStart
      (markupChars fmt (disasterTemplate title location owner created description tags id ""))
      = true := by
  simp only [disasterTemplate, loadButtons, List.cons_append, List.nil_append, markupChars,
    Piece.chars]
  repeat' apply safeFor_append
  all_goals first
    | assumption
    | decide

theorem disasterTemplate_split (title location owner : String) (created : JSVal)
    (description tags id delete : String) :
    disasterTemplate title location owner created description tags id delete
      = [ .text "\n            <h3>", .text title,
          .text "</h3>\n            <div class=\"disaster-meta\">\n                <strong>Location:</strong> ",
          .text location,
          .text "<br>\n                <strong>Owner:</strong> ", .text owner,
          .text "<br>\n                <strong>Created:</strong> ", .localeString created,
          .text "\n            </div>\n            <p>", .text description,
          .text "</p>\n            <div class=\"tags\">", .text tags,
          .text "</div>\n            <div class=\"actions\">\n                " ]
        ++ [.text "<button onclick=\"loadSocialMediaForDisaster('", .text id, .text "')\" class=\"btn-secondary\">\n                    Load Social Media\n                </button>"]
        ++ ([.text "\n                "]
        ++ [.text "<button onclick=\"loadResourcesForDisaster('", .text id, .text "')\" class=\"btn-secondary\">\n                    Load Resources\n                </button>"]
        ++ ([.text "\n                "]
        ++ [.text "<button onclick=\"loadOfficialUpdates('", .text id, .text "')\" class=\"btn-secondary\">\n                    Official Updates\n                </button>"]
        ++ ([.text "\n                "] ++ [.text delete] ++ [.text "\n            </div>\n        "]))) := rfl

theorem markupChars_three (fmt : JSVal → String) (a id b : String) :
    markupChars fmt [.text a, .text id, .text b] = (a ++ id ++ b).data := by
  simp [markupChars, Piece.chars, String.data_append]

theorem markupChars_one (fmt : JSVal → String) (a : String) :
    markupChars fmt [.text a] = a.data := by
  simp [markupChars, Piece.chars]

theorem within_left {x y : List Char} (z : List Char) (h : x <:+: y) : x <:+: y ++ z := by
  obtain ⟨s, t, rfl⟩ := h
  exact ⟨s, t ++ z, by simp⟩

theorem within_right {x y : List Char} (z : List Char) (h : x <:+: y) : x <:+: z ++ y := by
  obtain ⟨s, t, rfl⟩ := h
  exact ⟨z ++ s, t, by simp⟩

theorem within_mid (x y z : List Char) : y <:+: x ++ y ++ z := ⟨x, z, rfl⟩

theorem disasterTemplate_buttons (fmt : JSVal → String)
    (title location owner : String) (created : JSVal)
    (description tags id delete : String) :
    delete.data <:+:
      markupChars fmt (disasterTemplate title location owner created description tags id delete) ∧
    ("<button onclick=\"loadSocialMediaForDisaster('" ++ id ++ "')\" class=\"btn-secondary\">\n                    Load Social Media\n                </button>").data <:+:
      markupChars fmt (disasterTemplate title location owner created description tags id delete) ∧
    ("<button onclick=\"loadResourcesForDisaster('" ++ id ++ "')\" class=\"btn-secondary\">\n                    Load Resources\n                </button>").data <:+:
      markupChars fmt (disasterTemplate title location owner created description tags id delete) ∧
    ("<button onclick=\"loadOfficialUpdates('" ++ id ++ "')\" class=\"btn-secondary\">\n                    Official Updates\n                </button>").data <:+:
      markupChars fmt (disasterTemplate title location owner created description tags id delete)
    := by
  rw [disasterTemplate_split]
  simp only [markupChars_append, markupChars_three, markupChars_one]
  refine ⟨?_, ?_, ?_, ?_⟩
  · exact within_right _ (within_right _ (within_right _ (within_mid _ _ _)))
  · exact within_left _ (within_right _ ⟨[], [], by simp⟩)
  · exact within_right _ (within_left _ (within_right _ ⟨[], [], by simp⟩))
  · exact within_right _ (within_right _ (within_left _ (within_right _ ⟨[], [], by simp⟩)))

theorem deleteButton_needs_start (id : String) (x : List Char)
    (hx : safeFor deleteStart x = true) : ¬ (deleteButton id).data <:+: x := by
  rintro ⟨s, t, h⟩
  have hd : (deleteButton id).data
      = ('<' :: deleteStart) ++ ("eleteDisaster('".data ++ id.data ++ "')\" class=\"btn-danger\">Delete</button>".data) := by
    simp only [deleteButton, String.data_append]
    rfl
  rw [hd] at h
  exact safeFor_not_within deleteStart s x
    ("eleteDisaster('".data ++ id.data ++ "')\" class=\"btn-danger\">Delete</button>".data ++ t) hx
    (by rw [← h]; simp)

/-- C9 (as stated, refuted): a disaster `d1` owned by `reliefAdmin` whose title is
the text of a delete button.  For the current user `citizen1`, who is neither the
owner nor `netrunnerX`, the markup assigned to the item contains the delete button
of `d1`. -/
theorem displayDisasters_delete_button_forged :
    ∃ item,
      (displayDisasters
        { State.initial with
          currentUser := "citizen1",
          disasters := arr [Disaster.toJS
            (Disaster.mk "d1" "<button onclick=\"deleteDisaster('d1')\" class=\"btn-danger\">Delete</button>"
              "Downtown" "Flood" [] "reliefAdmin" "2025-01-01")] }).2.disastersList
        = [.item "disaster-item" item] ∧
      ("<button onclick=\"deleteDisaster('" ++ "d1" ++ "')\" class=\"btn-danger\">Delete</button>").data
        <:+: (innerHTML (fun _ => "1/1/2025, 12:00:00 AM") item).data ∧
      ¬ ("citizen1" = "reliefAdmin" ∨ "citizen1" = "netrunnerX") := by
  refine ⟨_, rfl, ?_, by decide⟩
  exact markupChars_within (fun _ => "1/1/2025, 12:00:00 AM")
    [.text "\n            <h3>"] [.text "<button onclick=\"deleteDisaster('d1')\" class=\"btn-danger\">Delete</button>"] _

/-- C9 (amended): for every list of disaster records whose texts hold no `<` and
whose identifiers hold none of `<`, `"`, `&` (and a locale whose dates hold no `<`)
and every current user, `displayDisasters` renders one item per record, in order;
the markup assigned to the item of record `d` contains the delete button of `d`
exactly when the current user equals `d.owner_id` or is `netrunnerX`, and contains
the three load buttons of `d` in every case. -/
theorem displayDisasters_delete_button (toLocaleString : JSVal → String) (s : State)
    (ds : List Disaster)
    (hdate : ∀ v, plainText (toLocaleString v) = true)
    (hplain : ∀ d ∈ ds, d.plain = true) :
    (displayDisasters { s with disasters := arr (ds.map Disaster.toJS) }).1 = .ok () ∧
    ∃ items : List (List Piece),
      (displayDisasters { s with disasters := arr (ds.map Disaster.toJS) }).2.disastersList
          = items.map (Node.item "disaster-item") ∧
      List.Forall₂ (fun d item =>
          (("<button onclick=\"deleteDisaster('" ++ d.id ++ "')\" class=\"btn-danger\">Delete</button>").data
              <:+: (innerHTML toLocaleString item).data ↔
            (s.currentUser = d.owner_id ∨ s.currentUser = "netrunnerX")) ∧
          ("<button onclick=\"loadSocialMediaForDisaster('" ++ d.id ++ "')\" class=\"btn-secondary\">\n                    Load Social Media\n                </button>").data
              <:+: (innerHTML toLocaleString item).data ∧
          ("<button onclick=\"loadResourcesForDisaster('" ++ d.id ++ "')\" class=\"btn-secondary\">\n                    Load Resources\n                </button>").data
              <:+: (innerHTML toLocaleString item).data ∧
          ("<button onclick=\"loadOfficialUpdates('" ++ d.id ++ "')\" class=\"btn-secondary\">\n                    Official Updates\n                </button>").data
              <:+: (innerHTML toLocaleString item).data)
        ds items := by
  obtain ⟨f, hf⟩ : ∃ f : JSVal → List Piece, ∀ d : Disaster,
      renderDisaster s.currentUser d.toJS = .ok (f d.toJS) := by
    refine ⟨fun v => match renderDisaster s.currentUser v with
      | .ok item => item
      | .error _ => [], ?_⟩
    intro d
    obtain ⟨t, ht, -⟩ := tagSpans_record d.tags
    simp [renderDisaster_record s.currentUser d t ht]
  have hall : ∀ x ∈ ds.map Disaster.toJS, renderDisaster s.currentUser x = .ok (f x) := by
    intro x hx
    obtain ⟨d, -, rfl⟩ := List.mem_map.mp hx
    exact hf d
  have hrun := forEachAppend_map (renderDisaster s.currentUser) "disaster-item" f
    (ds.map Disaster.toJS) [] hall
  refine ⟨by simp [displayDisasters, hrun], ds.map (fun d => f d.toJS), ?_, ?_⟩
  · simp [displayDisasters, hrun, List.map_map, Function.comp_def]
  · rw [List.forall₂_map_right_iff]
    apply List.forall₂_same.mpr
    intro d hd
    obtain ⟨t, ht, hsafe⟩ := tagSpans_record d.tags
    have hitem := (hf d).symm.trans (renderDisaster_record s.currentUser d t ht)
    simp only [Except.ok.injEq] at hitem
    have hp := hplain d hd
    simp only [Disaster.plain, Bool.and_eq_true] at hp
    obtain ⟨⟨⟨⟨⟨pid, ptitle⟩, ploc⟩, pdesc⟩, ptags⟩, powner⟩ := hp
    rw [hitem]
    have hb := disasterTemplate_buttons toLocaleString d.title
      (if d.location_name = "" then "Unknown" else d.location_name)
      d.owner_id (str d.created_at) d.description t d.id
      (if d.owner_id = s.currentUser ∨ s.currentUser = "netrunnerX" then deleteButton d.id
       else "")
    have hcomm : (d.owner_id = s.currentUser ∨ s.currentUser = "netrunnerX") ↔
        (s.currentUser = d.owner_id ∨ s.currentUser = "netrunnerX") := by
      rw [eq_comm]
    show ((deleteButton d.id).data <:+: markupChars toLocaleString _ ↔ _) ∧
      _ <:+: markupChars toLocaleString _ ∧ _ <:+: markupChars toLocaleString _ ∧
      _ <:+: markupChars toLocaleString _
    refine ⟨?_, hb.2.1, hb.2.2.1, hb.2.2.2⟩
    rw [← hcomm]
    constructor
    · intro hin
      by_contra hc
      have hsafeAll := disasterTemplate_safe toLocaleString d.title
        (if d.location_name = "" then "Unknown" else d.location_name)
        d.owner_id (str d.created_at) d.description t d.id
        (safeFor_of_plain _ _ ptitle)
        (by split
            · decide
            · exact safeFor_of_plain _ _ ploc)
        (safeFor_of_plain _ _ powner)
        (safeFor_of_plain _ _ (hdate _))
        (safeFor_of_plain _ _ pdesc)
        (hsafe ptags)
        (safeFor_of_plainAttribute _ _ pid)
      rw [if_neg hc] at hin
      exact deleteButton_needs_start d.id _ hsafeAll hin
    · intro hc
      have h1 := hb.1
      rw [if_pos hc] at h1 ⊢
      exact h1

/-- C9 (amended) at a concrete input: one plain record owned by `citizen1`, shown
to `citizen1`. -/
theorem displayDisasters_delete_button_witness :
    (∀ v : JSVal, plainText ((fun _ => "1/1/2025, 12:00:00 AM") v) = true) ∧
    (∀ d ∈ [(Disaster.mk "d1" "Flood A" "Downtown" "Water rising" ["urgent", "flood"] "citizen1" "2025-01-01")], d.plain = true) ∧
    (displayDisasters
      { State.initial with
        currentUser := "citizen1",
        disasters := arr ([(Disaster.mk "d1" "Flood A" "Downtown" "Water rising" ["urgent", "flood"] "citizen1" "2025-01-01")].map Disaster.toJS) }).1 = .ok () :=
  ⟨fun _ => (by decide : plainText "1/1/2025, 12:00:00 AM" = true), by decide,
   (displayDisasters_delete_button (fun _ => "1/1/2025, 12:00:00 AM")
      { State.initial with currentUser := "citizen1" }
      [(Disaster.mk "d1" "Flood A" "Downtown" "Water rising" ["urgent", "flood"] "citizen1" "2025-01-01")]
      (fun _ => (by decide : plainText "1/1/2025, 12:00:00 AM" = true)) (by decide)).1⟩

end CityMall
